import Mathlib

/-!
Verification development for the SQL-editor core: a shallow embedding of
`src/utils/lexer.js`, `src/utils/parser.js` and the executor / expression
evaluator of `src/components/SQLEditor.js`, together with theorems settling
the frozen claims about the natural-language specification.

Conventions of the embedding:
* JavaScript strings are modelled as `String` / `List Char`; positions are `Nat`.
* JavaScript numbers are modelled as `Rat` plus an explicit `NaN` marker
  (no floating point subtleties are relied on by any theorem).
* `throw` is modelled with `Except`; functions that can observably mutate
  state before throwing return the (possibly partially mutated) state
  alongside the `Except` result.
-/

set_option autoImplicit false

namespace SqlEd

/-- single-quote character, written via its code point to keep source plain -/
def quoteChar : Char := Char.ofNat 39

/-- matches the lexer's `isWhitespace` (JavaScript regexp `\s`), by code
point: tab through carriage return, space, and the Unicode space class -/
def isWhitespaceChar (c : Char) : Bool :=
  c.toNat == 32 || c.toNat == 9 || c.toNat == 10 || c.toNat == 13 ||
  c.toNat == 11 || c.toNat == 12 || c.toNat == 0xA0 || c.toNat == 0x1680 ||
  (0x2000 ≤ c.toNat && c.toNat ≤ 0x200A) ||
  c.toNat == 0x2028 || c.toNat == 0x2029 || c.toNat == 0x202F ||
  c.toNat == 0x205F || c.toNat == 0x3000 || c.toNat == 0xFEFF

/-- matches the lexer's `isLetter` (regexp `[a-zA-Z]`), by code point -/
def isLetterChar (c : Char) : Bool :=
  (97 ≤ c.toNat && c.toNat ≤ 122) || (65 ≤ c.toNat && c.toNat ≤ 90)

/-- matches the lexer's `isDigit` (regexp `[0-9]`), by code point -/
def isDigitChar (c : Char) : Bool :=
  48 ≤ c.toNat && c.toNat ≤ 57

/-- matches the lexer's `isIdentifierChar` -/
def isIdentifierChar (c : Char) : Bool :=
  isLetterChar c || isDigitChar c || c = '_'

/-- the lexer's fixed `KEYWORDS` set -/
def KEYWORDS : List String :=
  ["SELECT", "FROM", "WHERE", "INSERT", "INTO", "VALUES",
   "UPDATE", "SET", "DELETE", "AND", "OR", "NOT", "NULL",
   "CREATE", "TABLE", "DROP", "ALTER", "INDEX", "PRIMARY",
   "KEY", "FOREIGN", "REFERENCES", "DEFAULT", "CONSTRAINT",
   "SHOW", "TABLES"]

/-- the lexer's fixed `OPERATORS` set -/
def OPERATORS : List String :=
  ["=", "<", ">", "<=", ">=", "<>", "+", "-", "*", "/", "%"]

/-- token kinds actually emitted by the lexer -/
inductive TokenType where
  | KEYWORD | IDENTIFIER | STRING | NUMBER | OPERATOR | PUNCTUATION
  deriving DecidableEq, Repr

/-- a lexer token: kind, lexeme text, start offset in the source -/
structure Token where
  type : TokenType
  value : String
  position : Nat
  deriving DecidableEq, Repr

/-- errors thrown by `LexicalAnalyzer.analyze`; `outOfFuel` is an artifact of
the fuel-based embedding of the scanning loop and is unreachable from
`lexicalAnalysis`, which supplies one fuel unit per input character plus one
while every loop iteration consumes at least one character -/
inductive LexError where
  /-- `Invalid character c at position p` -/
  | invalidChar (c : Char) (pos : Nat)
  /-- `Unterminated string at position p` (p = opening quote) -/
  | unterminatedString (pos : Nat)
  /-- fuel marker of the embedding, never returned by `lexicalAnalysis` -/
  | outOfFuel
  deriving DecidableEq, Repr

/-- the whitespace-skipping loop inside `analyze` -/
def skipWs : List Char → List Char
  | [] => []
  | c :: cs => if isWhitespaceChar c then skipWs cs else c :: cs

/-- accumulation loop of `tokenizeIdentifier` -/
def identAux : List Char → List Char × List Char
  | [] => ([], [])
  | c :: cs =>
    if isIdentifierChar c then
      let p := identAux cs
      (c :: p.1, p.2)
    else ([], c :: cs)

/-- accumulation loop of `tokenizeNumber`; the `Bool` is `hasDecimalPoint` -/
def numAux : List Char → Bool → List Char × List Char
  | [], _ => ([], [])
  | c :: cs, hasDot =>
    if isDigitChar c then
      let p := numAux cs hasDot
      (c :: p.1, p.2)
    else if c = '.' then
      if hasDot then ([], c :: cs)
      else
        let p := numAux cs true
        (c :: p.1, p.2)
    else ([], c :: cs)

/-- accumulation loop of `tokenizeString`, applied to the characters after the
opening quote; `none` means the closing quote was never found -/
def strAux : List Char → Option (List Char × List Char)
  | [] => none
  | c :: cs =>
    if c = quoteChar then
      match cs with
      | [] => some ([], [])
      | c2 :: cs2 =>
        if c2 = quoteChar then
          match strAux cs2 with
          | some p => some (quoteChar :: p.1, p.2)
          | none => none
        else some ([], c2 :: cs2)
    else
      match strAux cs with
      | some p => some (c :: p.1, p.2)
      | none => none

/-- greedy loop of `tokenizeOperator`: extend while the extended text is still
in `OPERATORS` -/
def opLoop (v : List Char) : List Char → List Char × List Char
  | [] => (v, [])
  | c :: cs =>
    if OPERATORS.contains (String.mk (v ++ [c])) then opLoop (v ++ [c]) cs
    else (v, c :: cs)

theorem skipWs_length_le : ∀ l : List Char, (skipWs l).length ≤ l.length := by
  intro l
  induction l with
  | nil => simp [skipWs]
  | cons c cs ih =>
    simp only [skipWs]
    split
    · exact Nat.le_succ_of_le ih
    · simp

theorem identAux_length_le : ∀ l : List Char, (identAux l).2.length ≤ l.length := by
  intro l
  induction l with
  | nil => simp [identAux]
  | cons c cs ih =>
    simp only [identAux]
    split
    · exact Nat.le_succ_of_le ih
    · simp

theorem numAux_length_le : ∀ (l : List Char) (b : Bool), (numAux l b).2.length ≤ l.length := by
  intro l
  induction l with
  | nil => intro b; simp [numAux]
  | cons c cs ih =>
    intro b
    simp only [numAux]
    split
    · exact Nat.le_succ_of_le (ih b)
    · split
      · split
        · simp
        · exact Nat.le_succ_of_le (ih true)
      · simp

theorem strAux_length_le (l : List Char) :
    ∀ v rest, strAux l = some (v, rest) → rest.length ≤ l.length := by
  induction l using strAux.induct with
  | case1 => intro v rest h; simp [strAux] at h
  | case2 => intro v rest h; simp [strAux] at h; simp [h.2]
  | case3 cs2 p hp ih =>
    intro v rest h
    simp [strAux, hp] at h
    have := ih p.1 p.2 (by rw [hp])
    rw [← h.2]
    simp only [List.length_cons]
    omega
  | case4 cs2 hp ih =>
    intro v rest h
    simp [strAux, hp] at h
  | case5 c2 cs2 hne =>
    intro v rest h
    simp [strAux, hne] at h
    rw [← h.2]
    simp only [List.length_cons]
    omega
  | case6 c2 cs2 hne p hp ih =>
    intro v rest h
    rw [strAux.eq_def] at h
    simp only [if_neg hne, hp, Option.some.injEq, Prod.mk.injEq] at h
    have := ih p.1 p.2 (by rw [hp])
    rw [← h.2]
    exact Nat.le_succ_of_le this
  | case7 c2 cs2 hne hp ih =>
    intro v rest h
    rw [strAux.eq_def] at h
    simp [if_neg hne, hp] at h

theorem opLoop_length_le : ∀ (l v : List Char), (opLoop v l).2.length ≤ l.length := by
  intro l
  induction l with
  | nil => intro v; simp [opLoop]
  | cons c cs ih =>
    intro v
    simp only [opLoop]
    split
    · exact Nat.le_succ_of_le (ih _)
    · simp

theorem identAux_cons_length_le (c : Char) (cs : List Char) (h : isIdentifierChar c = true) :
    (identAux (c :: cs)).2.length ≤ cs.length := by
  simp only [identAux, h, if_pos]
  exact identAux_length_le cs

theorem numAux_cons_length_le (c : Char) (cs : List Char) (b : Bool)
    (h : isDigitChar c = true) : (numAux (c :: cs) b).2.length ≤ cs.length := by
  simp only [numAux, h, if_pos]
  exact numAux_length_le cs b

/-- the lexer's punctuation set `'(),;'` -/
def isPunctChar (c : Char) : Bool :=
  c = '(' || c = ')' || c = ',' || c = ';'

/-- the `OPERATORS.has(char)` test entering `tokenizeOperator` -/
def isOpStartChar (c : Char) : Bool :=
  OPERATORS.contains (String.singleton c)

/-- uppercase a string (JavaScript `toUpperCase`; the grammar only compares
ASCII text) -/
def upperStr (s : String) : String := String.mk (s.toList.map Char.toUpper)

/-- keyword check performed at the end of `tokenizeIdentifier` -/
def mkIdentToken (chars : List Char) (pos : Nat) : Token :=
  let upper := upperStr (String.mk chars)
  if KEYWORDS.contains upper then { type := .KEYWORD, value := upper, position := pos }
  else { type := .IDENTIFIER, value := String.mk chars, position := pos }

/-- the main scanning loop of `LexicalAnalyzer.analyze`, over the remaining
characters together with the current offset into the source; the fuel
argument only bounds the number of loop iterations -/
def analyzeAux : Nat → List Char → Nat → Except LexError (List Token)
  | 0, _, _ => .error .outOfFuel
  | _ + 1, [], _ => .ok []
  | fuel + 1, c :: cs, pos =>
    if isWhitespaceChar c then
      analyzeAux fuel (skipWs cs) (pos + 1 + (cs.length - (skipWs cs).length))
    else if isLetterChar c then
      let p := identAux (c :: cs)
      match analyzeAux fuel p.2 (pos + p.1.length) with
      | .ok ts => .ok (mkIdentToken p.1 pos :: ts)
      | .error e => .error e
    else if isDigitChar c then
      let p := numAux (c :: cs) false
      match analyzeAux fuel p.2 (pos + p.1.length) with
      | .ok ts => .ok ({ type := .NUMBER, value := String.mk p.1, position := pos } :: ts)
      | .error e => .error e
    else if c = quoteChar then
      match strAux cs with
      | some p =>
        match analyzeAux fuel p.2 (pos + 1 + (cs.length - p.2.length)) with
        | .ok ts => .ok ({ type := .STRING, value := String.mk p.1, position := pos } :: ts)
        | .error e => .error e
      | none => .error (.unterminatedString pos)
    else if isOpStartChar c then
      let p := opLoop [c] cs
      match analyzeAux fuel p.2 (pos + p.1.length) with
      | .ok ts => .ok ({ type := .OPERATOR, value := String.mk p.1, position := pos } :: ts)
      | .error e => .error e
    else if isPunctChar c then
      match analyzeAux fuel cs (pos + 1) with
      | .ok ts => .ok ({ type := .PUNCTUATION, value := String.singleton c, position := pos } :: ts)
      | .error e => .error e
    else .error (.invalidChar c pos)

/-- `lexicalAnalysis(query)` from `src/utils/lexer.js` -/
def lexicalAnalysis (query : String) : Except LexError (List Token) :=
  analyzeAux (query.toList.length + 1) query.toList 0

/-! JavaScript runtime values and coercions used by the executor -/

/-- exact value of a JavaScript number computed by this program: an integer
numerator over a power-of-ten denominator, compared by cross-multiplication
(decimal literals are exact, so no floating-point subtlety is relied on) -/
structure JSNum where
  num : Int
  den : Nat
  deriving DecidableEq, Repr

/-- numeric equality of two number values -/
def JSNum.eqb (a b : JSNum) : Bool := a.num * (b.den : Int) == b.num * (a.den : Int)

/-- numeric strict order of two number values -/
def JSNum.ltb (a b : JSNum) : Bool := decide (a.num * (b.den : Int) < b.num * (a.den : Int))

/-- numeric non-strict order of two number values -/
def JSNum.leb (a b : JSNum) : Bool := decide (a.num * (b.den : Int) ≤ b.num * (a.den : Int))

/-- values flowing through the evaluator and the store -/
inductive JSValue where
  | num (q : JSNum)
  | nan
  | str (s : String)
  | bool (b : Bool)
  | nullV
  | undefined
  deriving DecidableEq, Repr

/-- leading digit run of a character list -/
def splitDigits : List Char → List Char × List Char
  | [] => ([], [])
  | c :: cs =>
    if isDigitChar c then
      let p := splitDigits cs
      (c :: p.1, p.2)
    else ([], c :: cs)

/-- decimal digit run to a natural number -/
def digitsToNat (ds : List Char) : Nat :=
  ds.foldl (fun n c => n * 10 + (c.toNat - 48)) 0

/-- the number denoted by sign, integer digits, fraction digits and a signed
decimal exponent -/
def makeNum (sign : Int) (d1 d2 : List Char) (expNeg : Bool) (ed : List Char) : JSNum :=
  let mantNum : Int := sign * ((digitsToNat d1 : Int) * (10 : Int) ^ d2.length + (digitsToNat d2 : Int))
  let mantDen : Nat := 10 ^ d2.length
  if expNeg then ⟨mantNum, mantDen * 10 ^ digitsToNat ed⟩
  else ⟨mantNum * (10 : Int) ^ digitsToNat ed, mantDen⟩

/-- model of JavaScript `parseFloat` (leading-prefix float parse; lexer NUMBER
lexemes are digit runs with at most one dot, on which this is exact) -/
def jsParseFloat (s : String) : JSValue :=
  let l := s.toList.dropWhile (fun c => isWhitespaceChar c)
  let sl : Int × List Char :=
    match l with
    | '-' :: r => (-1, r)
    | '+' :: r => (1, r)
    | r => (1, r)
  let (d1, l2) := splitDigits sl.2
  let dl : List Char × List Char :=
    match l2 with
    | '.' :: r => splitDigits r
    | r => ([], r)
  if d1.isEmpty && dl.1.isEmpty then .nan
  else
    match dl.2 with
    | e :: r =>
      if e = 'e' ∨ e = 'E' then
        let er : Bool × List Char :=
          match r with
          | '-' :: rr => (true, rr)
          | '+' :: rr => (false, rr)
          | rr => (false, rr)
        let ed := (splitDigits er.2).1
        if ed.isEmpty then .num (makeNum sl.1 d1 dl.1 false [])
        else .num (makeNum sl.1 d1 dl.1 er.1 ed)
      else .num (makeNum sl.1 d1 dl.1 false [])
    | [] => .num (makeNum sl.1 d1 dl.1 false [])

/-- model of the `Number(s)` string coercion used by loose comparison (the
whole trimmed string must be numeric; hexadecimal/Infinity forms, which no
claim exercises, map to NaN). `none` encodes NaN -/
def strToNumber (s : String) : Option JSNum :=
  let t :=
    ((s.toList.dropWhile (fun c => isWhitespaceChar c)).reverse.dropWhile
      (fun c => isWhitespaceChar c)).reverse
  match t with
  | [] => some ⟨0, 1⟩
  | _ =>
    let sl : Int × List Char :=
      match t with
      | '-' :: r => (-1, r)
      | '+' :: r => (1, r)
      | r => (1, r)
    let (d1, l2) := splitDigits sl.2
    let dl : List Char × List Char :=
      match l2 with
      | '.' :: r => splitDigits r
      | r => ([], r)
    if d1.isEmpty && dl.1.isEmpty then none
    else
      match dl.2 with
      | [] => some (makeNum sl.1 d1 dl.1 false [])
      | e :: r =>
        if e = 'e' ∨ e = 'E' then
          let er : Bool × List Char :=
            match r with
            | '-' :: rr => (true, rr)
            | '+' :: rr => (false, rr)
            | rr => (false, rr)
          let ep := splitDigits er.2
          if ep.1.isEmpty ∨ ¬ ep.2.isEmpty then none
          else some (makeNum sl.1 d1 dl.1 er.1 ep.1)
        else none

/-- ToNumber on a primitive value; `none` encodes NaN -/
def toNumberJS : JSValue → Option JSNum
  | .num q => some q
  | .nan => none
  | .str s => strToNumber s
  | .bool b => some (if b then ⟨1, 1⟩ else ⟨0, 1⟩)
  | .nullV => some ⟨0, 1⟩
  | .undefined => none

def isNullish : JSValue → Bool
  | .nullV => true
  | .undefined => true
  | _ => false

/-- JavaScript loose equality `==` on the primitive values of this system -/
def jsLooseEq (a b : JSValue) : Bool :=
  match a, b with
  | .str x, .str y => x = y
  | _, _ =>
    if isNullish a || isNullish b then isNullish a && isNullish b
    else
      match toNumberJS a, toNumberJS b with
      | some x, some y => x.eqb y
      | _, _ => false

/-- JavaScript `<` (string versus numeric comparison, NaN compares false) -/
def jsLess (a b : JSValue) : Bool :=
  match a, b with
  | .str x, .str y => decide (x < y)
  | _, _ =>
    match toNumberJS a, toNumberJS b with
    | some x, some y => x.ltb y
    | _, _ => false

/-- JavaScript `<=` -/
def jsLe (a b : JSValue) : Bool :=
  match a, b with
  | .str x, .str y => decide (x ≤ y)
  | _, _ =>
    match toNumberJS a, toNumberJS b with
    | some x, some y => x.leb y
    | _, _ => false

/-- JavaScript truthiness of a value -/
def truthy : JSValue → Bool
  | .num q => decide (q.num ≠ 0)
  | .nan => false
  | .str s => decide (s ≠ "")
  | .bool b => b
  | .nullV => false
  | .undefined => false

/-! rows, tables, and the store -/

/-- a row: a JavaScript object mapping column names to values -/
abbrev Row := List (String × JSValue)

abbrev Table := List Row

/-- the mock database: table name to row array, in insertion order -/
abbrev Store := List (String × Table)

/-- `row.hasOwnProperty(k)` -/
def rowHas (r : Row) (k : String) : Bool := r.any (fun p => p.1 == k)

/-- `row[k]`; an absent key reads as `undefined` -/
def rowGet (r : Row) (k : String) : JSValue :=
  match r.find? (fun p => p.1 == k) with
  | some p => p.2
  | none => .undefined

/-- `row[k] = v`: overwrite the (necessarily unique) existing key in place,
else append the key -/
def rowSet : Row → String → JSValue → Row
  | [], k, v => [(k, v)]
  | p :: rest, k, v => if p.1 == k then (k, v) :: rest else p :: rowSet rest k v

/-- `Object.keys(row)` -/
def rowKeys (r : Row) : List String := r.map (fun p => p.1)

/-- `db[t]`; an absent (or undefined) table is `none` -/
def storeGet (db : Store) (t : String) : Option Table :=
  match db.find? (fun p => p.1 == t) with
  | some p => some p.2
  | none => none

/-- `{...db, [t]: tbl}`: replace the (necessarily unique) table keeping key
order, else append it -/
def storeSet : Store → String → Table → Store
  | [], t, tbl => [(t, tbl)]
  | p :: rest, t, tbl => if p.1 == t then (t, tbl) :: rest else p :: storeSet rest t tbl

/-! the AST shapes built by `parser.js` -/

/-- operator symbols a `BinaryExpression` node built by the expression grammar
can carry -/
inductive BinOp where
  | orOp | andOp | eq | ne | lt | gt | le | ge | add | sub | mul | div
  deriving DecidableEq, Repr

/-- kinds of tokens that `SQLParser.parseValue` accepts in a value position,
and that a `Literal` node's `valueType` can be -/
inductive VKind where
  | NUMBER | STRING | IDENTIFIER
  deriving DecidableEq, Repr

/-- a raw value token kept in INSERT values lists and UPDATE assignments -/
structure ValueToken where
  kind : VKind
  value : String
  deriving DecidableEq, Repr

/-- expression AST nodes built by the WHERE-clause grammar -/
inductive Expr where
  | binary (op : BinOp) (left right : Expr)
  | literal (valueType : VKind) (value : String)
  | identifier (value : String)
  deriving DecidableEq, Repr

/-- one `column = value` pair of an UPDATE's SET list -/
structure Assignment where
  column : String
  value : ValueToken
  deriving DecidableEq, Repr

/-- statement AST nodes (`wh` is the optional WHERE expression; `where` is a
reserved word in Lean) -/
inductive Stmt where
  | select (columns : List String) (table : String) (wh : Option Expr)
  | insert (table : String) (columns : List String) (valuesList : List (List ValueToken))
  | update (table : String) (assignments : List Assignment) (wh : Option Expr)
  | delete (table : String) (wh : Option Expr)
  | showTables
  deriving DecidableEq, Repr

/-! the executor and evaluator of `SQLEditor.js` -/

/-- errors thrown by the executor and evaluator. `typeErrorKeysOfUndefined` is
the host TypeError raised by `Object.keys(tableData[0])` on an empty table -/
inductive ExecError where
  | tableNotFound (table : String)
  | columnCountMismatch
  | unsupportedOperator (op : BinOp)
  | unsupportedOperand
  | typeErrorKeysOfUndefined
  deriving DecidableEq, Repr

/-- single-quote as a string, for building the executor's message texts -/
def sq : String := String.singleton quoteChar

/-- the user-visible message string of an error, as the code's `err.message` -/
def execErrorMessage : ExecError → String
  | .tableNotFound t => "Table " ++ sq ++ t ++ sq ++ " not found"
  | .columnCountMismatch => "Column count does not match value count"
  | .unsupportedOperator _ => "Unsupported operator in WHERE clause"
  | .unsupportedOperand => "Unsupported operand type: BinaryExpression"
  | .typeErrorKeysOfUndefined => "Cannot convert undefined or null to object"

/-- result of executing one statement: a row set or a mutation message -/
inductive ExecResult where
  | resultSet (columns : List String) (rows : List (List JSValue))
  | message (s : String)
  deriving DecidableEq, Repr

/-- `parseValue(token)` of SQLEditor.js on the closed set of kinds the lexer
and parser can actually deliver (its default throw branch is unreachable on
them, which the closed `VKind` type reflects) -/
def parseValue (k : VKind) (v : String) : JSValue :=
  match k with
  | .NUMBER => jsParseFloat v
  | .STRING => .str v
  | .IDENTIFIER => .str v

/-- `getValue(row, operand)`: literal and identifier operands only; any other
node kind throws the unsupported-operand error -/
def getValue (row : Row) (operand : Expr) : Except ExecError JSValue :=
  match operand with
  | .literal k v => .ok (parseValue k v)
  | .identifier n => .ok (rowGet row n)
  | .binary _ _ _ => .error .unsupportedOperand

/-- `evaluateExpression(row, expression)`: note that both operands go through
`getValue` BEFORE the operator is dispatched, exactly as in the source -/
def evaluateExpression (row : Row) (e : Expr) : Except ExecError JSValue :=
  match e with
  | .binary op l r =>
    match getValue row l with
    | .error err => .error err
    | .ok left =>
      match getValue row r with
      | .error err => .error err
      | .ok right =>
        match op with
        | .eq => .ok (.bool (jsLooseEq left right))
        | .ne => .ok (.bool (! jsLooseEq left right))
        | .gt => .ok (.bool (jsLess right left))
        | .lt => .ok (.bool (jsLess left right))
        | .ge => .ok (.bool (jsLe right left))
        | .le => .ok (.bool (jsLe left right))
        | .andOp =>
          match evaluateExpression row l with
          | .error err => .error err
          | .ok a => if truthy a then evaluateExpression row r else .ok a
        | .orOp =>
          match evaluateExpression row l with
          | .error err => .error err
          | .ok a => if truthy a then .ok a else evaluateExpression row r
        | .add => .error (.unsupportedOperator .add)
        | .sub => .error (.unsupportedOperator .sub)
        | .mul => .error (.unsupportedOperator .mul)
        | .div => .error (.unsupportedOperator .div)
  | .literal k v => .ok (parseValue k v)
  | .identifier n => .ok (rowGet row n)

/-- the WHERE filter of `executeSelect` (`rows.filter(...)`, whose callback
can throw) -/
def filterRows (e : Expr) : List Row → Except ExecError (List Row)
  | [] => .ok []
  | r :: rs =>
    match evaluateExpression r e with
    | .error err => .error err
    | .ok v =>
      match filterRows e rs with
      | .error err => .error err
      | .ok rest => .ok (if truthy v then r :: rest else rest)

/-- `executeSelect` -/
def executeSelect (cols : List String) (tn : String) (wh : Option Expr) (db : Store) :
    Except ExecError ExecResult :=
  match storeGet db tn with
  | none => .error (.tableNotFound tn)
  | some tableData =>
    let rowsE := match wh with
      | some e => filterRows e tableData
      | none => .ok tableData
    match rowsE with
    | .error err => .error err
    | .ok rows =>
      let colsE := if cols.contains "*" then
          match tableData with
          | [] => Except.error ExecError.typeErrorKeysOfUndefined
          | r0 :: _ => Except.ok (rowKeys r0)
        else Except.ok cols
      match colsE with
      | .error err => .error err
      | .ok columns =>
        .ok (.resultSet columns
          (rows.map (fun row =>
            columns.map (fun c => if rowHas row c then rowGet row c else JSValue.nullV))))

/-- the record built for one tuple: pair columns positionally with converted
values, writing into a fresh object -/
def mkRecord (cols : List String) (vals : List ValueToken) : Row :=
  (cols.zip vals).foldl (fun r cv => rowSet r cv.1 (parseValue cv.2.kind cv.2.value)) ([] : Row)

/-- one record of `executeInsert`'s `newRecords` map: length check, then pair
columns with converted values -/
def buildRecord (cols : List String) (vals : List ValueToken) : Except ExecError Row :=
  if cols.length ≠ vals.length then .error .columnCountMismatch
  else .ok (mkRecord cols vals)

/-- `ast.valuesList.map(...)`, which throws out of the whole map on the first
bad tuple -/
def mapRecords (cols : List String) : List (List ValueToken) → Except ExecError (List Row)
  | [] => .ok []
  | vs :: rest =>
    match buildRecord cols vs with
    | .error e => .error e
    | .ok r =>
      match mapRecords cols rest with
      | .error e => .error e
      | .ok rs => .ok (r :: rs)

/-- `executeInsert`: on an error nothing has been mutated yet -/
def executeInsert (tn : String) (cols : List String) (valuesList : List (List ValueToken))
    (db : Store) : Store × Except ExecError ExecResult :=
  match storeGet db tn with
  | none => (db, .error (.tableNotFound tn))
  | some tableData =>
    match mapRecords cols valuesList with
    | .error e => (db, .error e)
    | .ok newRecords =>
      (storeSet db tn (tableData ++ newRecords),
       .ok (.message ("Inserted " ++ toString valuesList.length ++ " record(s) into "
         ++ sq ++ tn ++ sq ++ " table")))

/-- `assignments.forEach`: apply every assignment to the row in place -/
def applyAssignments (row : Row) (assigns : List Assignment) : Row :=
  assigns.foldl (fun r a => rowSet r a.column (parseValue a.value.kind a.value.value)) row

/-- the row-mapping loop of `executeUpdate`. Rows are mutated in place, so on
an error the already-processed prefix keeps its updates; the third component
is the pending error, the second the affected count so far -/
def updateRowsGo (wh : Option Expr) (assigns : List Assignment) :
    List Row → List Row × Nat × Option ExecError
  | [] => ([], 0, none)
  | row :: rest =>
    let matchedE : Except ExecError Bool :=
      match wh with
      | none => .ok true
      | some e =>
        match evaluateExpression row e with
        | .error err => .error err
        | .ok v => .ok (truthy v)
    match matchedE with
    | .error err => (row :: rest, 0, some err)
    | .ok matched =>
      let row' := if matched then applyAssignments row assigns else row
      let p := updateRowsGo wh assigns rest
      (row' :: p.1, (if matched then 1 else 0) + p.2.1, p.2.2)

/-- `executeUpdate` -/
def executeUpdate (tn : String) (assigns : List Assignment) (wh : Option Expr)
    (db : Store) : Store × Except ExecError ExecResult :=
  match storeGet db tn with
  | none => (db, .error (.tableNotFound tn))
  | some tableData =>
    let p := updateRowsGo wh assigns tableData
    match p.2.2 with
    | some err => (storeSet db tn p.1, .error err)
    | none =>
      (storeSet db tn p.1,
       .ok (.message ("Updated " ++ toString p.2.1 ++ " record(s) in "
         ++ sq ++ tn ++ sq ++ " table")))

/-- the retain-filter of `executeDelete`: keep a row iff WHERE is present and
evaluates falsy on it; with no WHERE the callback returns `false` for every
row, so nothing is kept -/
def deleteKeep (wh : Option Expr) : List Row → Except ExecError (List Row)
  | [] => .ok []
  | row :: rest =>
    let keepE : Except ExecError Bool :=
      match wh with
      | some e =>
        match evaluateExpression row e with
        | .error err => .error err
        | .ok v => .ok (! truthy v)
      | none => .ok false
    match keepE with
    | .error err => .error err
    | .ok keep =>
      match deleteKeep wh rest with
      | .error err => .error err
      | .ok rest' => .ok (if keep then row :: rest' else rest')

/-- `executeDelete` -/
def executeDelete (tn : String) (wh : Option Expr) (db : Store) :
    Store × Except ExecError ExecResult :=
  match storeGet db tn with
  | none => (db, .error (.tableNotFound tn))
  | some tableData =>
    match deleteKeep wh tableData with
    | .error err => (db, .error err)
    | .ok updated =>
      (storeSet db tn updated,
       .ok (.message ("Deleted " ++ toString (tableData.length - updated.length)
         ++ " record(s) from " ++ sq ++ tn ++ sq ++ " table")))

/-- `executeAST(ast, db, setDB)`: the resulting store is returned alongside
the result or error (on an error the store reflects any in-place mutation
that happened before the throw) -/
def executeAST (ast : Stmt) (db : Store) : Store × Except ExecError ExecResult :=
  match ast with
  | .showTables =>
    (db, .ok (.resultSet ["Tables_in_database"] (db.map (fun p => [JSValue.str p.1]))))
  | .select cols tn wh => (db, executeSelect cols tn wh db)
  | .insert tn cols vl => executeInsert tn cols vl db
  | .update tn assigns wh => executeUpdate tn assigns wh db
  | .delete tn wh => executeDelete tn wh db

/-! the recursive-descent parser of `src/utils/parser.js`, as functions over
the token list and the current token index. The recursive expression grammar
carries a fuel counter for termination; `parseSQL` supplies more fuel than
any input can consume, so the `outOfFuel` marker is unreachable from it on
the inputs appearing in the theorems below -/

/-- errors thrown by `SQLParser` -/
inductive ParseError where
  | emptyQuery
  | unsupportedCommand (value : String)
  | expectedEnd (ty : TokenType) (value : Option String)
  | expectedGot (ty : TokenType) (value : Option String) (gotType : TokenType) (gotValue : String)
  | unexpectedEndOfInput
  | unexpectedToken (ty : TokenType) (value : String) (pos : Nat)
  | expectedTablesAfterShow (gotValue : String)
  | typeErrorPeekNull
  | outOfFuel
  deriving DecidableEq, Repr

/-- `this.peek()` -/
def peekTok (toks : List Token) (pos : Nat) : Option Token := toks.get? pos

/-- the test of `this.match(type, value)` (value compare is case-insensitive);
the caller advances by one on success -/
def matchTok (toks : List Token) (pos : Nat) (ty : TokenType) (v : Option String) : Bool :=
  match peekTok toks pos with
  | some tok =>
    tok.type == ty &&
      (match v with
       | none => true
       | some s => upperStr tok.value == upperStr s)
  | none => false

/-- `this.expect(type, value)` -/
def expectTok (toks : List Token) (pos : Nat) (ty : TokenType) (v : Option String) :
    Except ParseError (Token × Nat) :=
  match peekTok toks pos with
  | none => .error (.expectedEnd ty v)
  | some tok =>
    if tok.type == ty &&
        (match v with
         | none => true
         | some s => upperStr tok.value == upperStr s) then
      .ok (tok, pos + 1)
    else .error (.expectedGot ty v tok.type tok.value)

/-- shorthand for the type of a parsing function of the expression grammar -/
abbrev ExprParser := List Token → Nat → Except ParseError (Expr × Nat)

/-- `parsePrimary`: identifier, literal, or parenthesized sub-expression
(which is returned as-is, producing no node of its own). The parser used for
the parenthesized sub-expression (`parseExpression`) is a parameter; the
recursive knot is tied in `parseExpressionFuel` below -/
def parsePrimary (pe : ExprParser) (toks : List Token) (pos : Nat) :
    Except ParseError (Expr × Nat) :=
  match peekTok toks pos with
  | none => .error .unexpectedEndOfInput
  | some tok =>
    if tok.type == .IDENTIFIER then .ok (.identifier tok.value, pos + 1)
    else if tok.type == .NUMBER then .ok (.literal .NUMBER tok.value, pos + 1)
    else if tok.type == .STRING then .ok (.literal .STRING tok.value, pos + 1)
    else if matchTok toks pos .PUNCTUATION (some "(") then
      match pe toks (pos + 1) with
      | .error e => .error e
      | .ok (e, p) =>
        match expectTok toks p .PUNCTUATION (some ")") with
        | .error err => .error err
        | .ok (_, p2) => .ok (e, p2)
    else .error (.unexpectedToken tok.type tok.value pos)

/-- the multiplicative-operator loop (`*`, `/`) of `parseMultiplicative` -/
def mulLoop (pe : ExprParser) : Nat → Expr → List Token → Nat →
    Except ParseError (Expr × Nat)
  | 0, _, _, _ => .error .outOfFuel
  | f + 1, left, toks, pos =>
    if matchTok toks pos .OPERATOR (some "*") then
      match parsePrimary pe toks (pos + 1) with
      | .error e => .error e
      | .ok (r, p) => mulLoop pe f (.binary .mul left r) toks p
    else if matchTok toks pos .OPERATOR (some "/") then
      match parsePrimary pe toks (pos + 1) with
      | .error e => .error e
      | .ok (r, p) => mulLoop pe f (.binary .div left r) toks p
    else .ok (left, pos)

/-- `parseMultiplicative` -/
def parseMultiplicative (pe : ExprParser) (fuel : Nat) (toks : List Token) (pos : Nat) :
    Except ParseError (Expr × Nat) :=
  match parsePrimary pe toks pos with
  | .error e => .error e
  | .ok (l, p) => mulLoop pe fuel l toks p

/-- the additive-operator loop (`+`, `-`) of `parseAdditive` -/
def addLoop (pe : ExprParser) : Nat → Expr → List Token → Nat →
    Except ParseError (Expr × Nat)
  | 0, _, _, _ => .error .outOfFuel
  | f + 1, left, toks, pos =>
    if matchTok toks pos .OPERATOR (some "+") then
      match parseMultiplicative pe f toks (pos + 1) with
      | .error e => .error e
      | .ok (r, p) => addLoop pe f (.binary .add left r) toks p
    else if matchTok toks pos .OPERATOR (some "-") then
      match parseMultiplicative pe f toks (pos + 1) with
      | .error e => .error e
      | .ok (r, p) => addLoop pe f (.binary .sub left r) toks p
    else .ok (left, pos)

/-- `parseAdditive` -/
def parseAdditive (pe : ExprParser) (fuel : Nat) (toks : List Token) (pos : Nat) :
    Except ParseError (Expr × Nat) :=
  match parseMultiplicative pe fuel toks pos with
  | .error e => .error e
  | .ok (l, p) => addLoop pe fuel l toks p

/-- the relational-operator loop (`<`, `>`, `<=`, `>=`) of `parseRelational` -/
def relLoop (pe : ExprParser) : Nat → Expr → List Token → Nat →
    Except ParseError (Expr × Nat)
  | 0, _, _, _ => .error .outOfFuel
  | f + 1, left, toks, pos =>
    if matchTok toks pos .OPERATOR (some "<") then
      match parseAdditive pe f toks (pos + 1) with
      | .error e => .error e
      | .ok (r, p) => relLoop pe f (.binary .lt left r) toks p
    else if matchTok toks pos .OPERATOR (some ">") then
      match parseAdditive pe f toks (pos + 1) with
      | .error e => .error e
      | .ok (r, p) => relLoop pe f (.binary .gt left r) toks p
    else if matchTok toks pos .OPERATOR (some "<=") then
      match parseAdditive pe f toks (pos + 1) with
      | .error e => .error e
      | .ok (r, p) => relLoop pe f (.binary .le left r) toks p
    else if matchTok toks pos .OPERATOR (some ">=") then
      match parseAdditive pe f toks (pos + 1) with
      | .error e => .error e
      | .ok (r, p) => relLoop pe f (.binary .ge left r) toks p
    else .ok (left, pos)

/-- `parseRelational` -/
def parseRelational (pe : ExprParser) (fuel : Nat) (toks : List Token) (pos : Nat) :
    Except ParseError (Expr × Nat) :=
  match parseAdditive pe fuel toks pos with
  | .error e => .error e
  | .ok (l, p) => relLoop pe fuel l toks p

/-- the equality-operator loop (`=`, `<>`) of `parseEquality` -/
def eqLoop (pe : ExprParser) : Nat → Expr → List Token → Nat →
    Except ParseError (Expr × Nat)
  | 0, _, _, _ => .error .outOfFuel
  | f + 1, left, toks, pos =>
    if matchTok toks pos .OPERATOR (some "=") then
      match parseRelational pe f toks (pos + 1) with
      | .error e => .error e
      | .ok (r, p) => eqLoop pe f (.binary .eq left r) toks p
    else if matchTok toks pos .OPERATOR (some "<>") then
      match parseRelational pe f toks (pos + 1) with
      | .error e => .error e
      | .ok (r, p) => eqLoop pe f (.binary .ne left r) toks p
    else .ok (left, pos)

/-- `parseEquality` -/
def parseEquality (pe : ExprParser) (fuel : Nat) (toks : List Token) (pos : Nat) :
    Except ParseError (Expr × Nat) :=
  match parseRelational pe fuel toks pos with
  | .error e => .error e
  | .ok (l, p) => eqLoop pe fuel l toks p

/-- the `while (match AND)` loop of `parseLogicalAnd` -/
def andLoop (pe : ExprParser) : Nat → Expr → List Token → Nat →
    Except ParseError (Expr × Nat)
  | 0, _, _, _ => .error .outOfFuel
  | f + 1, left, toks, pos =>
    if matchTok toks pos .KEYWORD (some "AND") then
      match parseEquality pe f toks (pos + 1) with
      | .error e => .error e
      | .ok (r, p) => andLoop pe f (.binary .andOp left r) toks p
    else .ok (left, pos)

/-- `parseLogicalAnd` -/
def parseLogicalAnd (pe : ExprParser) (fuel : Nat) (toks : List Token) (pos : Nat) :
    Except ParseError (Expr × Nat) :=
  match parseEquality pe fuel toks pos with
  | .error e => .error e
  | .ok (l, p) => andLoop pe fuel l toks p

/-- the `while (match OR)` loop of `parseLogicalOr` -/
def orLoop (pe : ExprParser) : Nat → Expr → List Token → Nat →
    Except ParseError (Expr × Nat)
  | 0, _, _, _ => .error .outOfFuel
  | f + 1, left, toks, pos =>
    if matchTok toks pos .KEYWORD (some "OR") then
      match parseLogicalAnd pe f toks (pos + 1) with
      | .error e => .error e
      | .ok (r, p) => orLoop pe f (.binary .orOp left r) toks p
    else .ok (left, pos)

/-- `parseLogicalOr` -/
def parseLogicalOr (pe : ExprParser) (fuel : Nat) (toks : List Token) (pos : Nat) :
    Except ParseError (Expr × Nat) :=
  match parseLogicalAnd pe fuel toks pos with
  | .error e => .error e
  | .ok (l, p) => orLoop pe fuel l toks p

/-- the recursive knot: a parenthesized sub-expression in `parsePrimary` is
parsed with one fuel unit less -/
def parseExpressionFuel : Nat → List Token → Nat → Except ParseError (Expr × Nat)
  | 0, _, _ => .error .outOfFuel
  | f + 1, toks, pos => parseLogicalOr (parseExpressionFuel f) f toks pos

/-- `parseExpression` simply delegates to the lowest-precedence level -/
def parseExpression (fuel : Nat) (toks : List Token) (pos : Nat) :
    Except ParseError (Expr × Nat) :=
  parseExpressionFuel fuel toks pos

/-- the `do {...} while (match ',')` loop of `parseColumnList` -/
def columnListAux (fuel : Nat) (toks : List Token) (pos : Nat) (acc : List String) :
    Except ParseError (List String × Nat) :=
  match fuel with
  | 0 => .error .outOfFuel
  | f + 1 =>
    let step : Except ParseError (List String × Nat) :=
      if matchTok toks pos .OPERATOR (some "*") then .ok (acc ++ ["*"], pos + 1)
      else
        match expectTok toks pos .IDENTIFIER none with
        | .error e => .error e
        | .ok (tok, p) => .ok (acc ++ [tok.value], p)
    match step with
    | .error e => .error e
    | .ok (acc', p) =>
      if matchTok toks p .PUNCTUATION (some ",") then columnListAux f toks (p + 1) acc'
      else .ok (acc', p)

/-- `parseColumnList` -/
def parseColumnList (fuel : Nat) (toks : List Token) (pos : Nat) :
    Except ParseError (List String × Nat) :=
  columnListAux fuel toks pos []

/-- the loop of `parseIdentifierList` -/
def identListAux (fuel : Nat) (toks : List Token) (pos : Nat) (acc : List String) :
    Except ParseError (List String × Nat) :=
  match fuel with
  | 0 => .error .outOfFuel
  | f + 1 =>
    match expectTok toks pos .IDENTIFIER none with
    | .error e => .error e
    | .ok (tok, p) =>
      if matchTok toks p .PUNCTUATION (some ",") then identListAux f toks (p + 1) (acc ++ [tok.value])
      else .ok (acc ++ [tok.value], p)

/-- `parseValue` of the parser: a STRING, NUMBER, or IDENTIFIER token -/
def parseValueTok (toks : List Token) (pos : Nat) : Except ParseError (ValueToken × Nat) :=
  match peekTok toks pos with
  | none => .error .unexpectedEndOfInput
  | some tok =>
    if tok.type == .STRING then .ok ({ kind := .STRING, value := tok.value }, pos + 1)
    else if tok.type == .NUMBER then .ok ({ kind := .NUMBER, value := tok.value }, pos + 1)
    else if tok.type == .IDENTIFIER then .ok ({ kind := .IDENTIFIER, value := tok.value }, pos + 1)
    else .error (.unexpectedToken tok.type tok.value pos)

/-- the inner value loop of `parseValuesList` (one parenthesized tuple) -/
def valuesAux (fuel : Nat) (toks : List Token) (pos : Nat) (acc : List ValueToken) :
    Except ParseError (List ValueToken × Nat) :=
  match fuel with
  | 0 => .error .outOfFuel
  | f + 1 =>
    match parseValueTok toks pos with
    | .error e => .error e
    | .ok (v, p) =>
      if matchTok toks p .PUNCTUATION (some ",") then valuesAux f toks (p + 1) (acc ++ [v])
      else .ok (acc ++ [v], p)

/-- the outer tuple loop of `parseValuesList` -/
def valuesListAux (fuel : Nat) (toks : List Token) (pos : Nat)
    (acc : List (List ValueToken)) : Except ParseError (List (List ValueToken) × Nat) :=
  match fuel with
  | 0 => .error .outOfFuel
  | f + 1 =>
    match expectTok toks pos .PUNCTUATION (some "(") with
    | .error e => .error e
    | .ok (_, p) =>
      match valuesAux f toks p [] with
      | .error e => .error e
      | .ok (vs, p2) =>
        match expectTok toks p2 .PUNCTUATION (some ")") with
        | .error e => .error e
        | .ok (_, p3) =>
          if matchTok toks p3 .PUNCTUATION (some ",") then valuesListAux f toks (p3 + 1) (acc ++ [vs])
          else .ok (acc ++ [vs], p3)

/-- the loop of `parseAssignments` -/
def assignmentsAux (fuel : Nat) (toks : List Token) (pos : Nat) (acc : List Assignment) :
    Except ParseError (List Assignment × Nat) :=
  match fuel with
  | 0 => .error .outOfFuel
  | f + 1 =>
    match expectTok toks pos .IDENTIFIER none with
    | .error e => .error e
    | .ok (ctok, p) =>
      match expectTok toks p .OPERATOR (some "=") with
      | .error e => .error e
      | .ok (_, p2) =>
        match parseValueTok toks p2 with
        | .error e => .error e
        | .ok (v, p3) =>
          let acc' := acc ++ [{ column := ctok.value, value := v : Assignment }]
          if matchTok toks p3 .PUNCTUATION (some ",") then assignmentsAux f toks (p3 + 1) acc'
          else .ok (acc', p3)

/-- `parseSelect` -/
def parseSelect (fuel : Nat) (toks : List Token) (pos : Nat) :
    Except ParseError (Stmt × Nat) :=
  match expectTok toks pos .KEYWORD (some "SELECT") with
  | .error e => .error e
  | .ok (_, p) =>
    match parseColumnList fuel toks p with
    | .error e => .error e
    | .ok (cols, p2) =>
      match expectTok toks p2 .KEYWORD (some "FROM") with
      | .error e => .error e
      | .ok (_, p3) =>
        match expectTok toks p3 .IDENTIFIER none with
        | .error e => .error e
        | .ok (ttok, p4) =>
          if matchTok toks p4 .KEYWORD (some "WHERE") then
            match parseExpression fuel toks (p4 + 1) with
            | .error e => .error e
            | .ok (w, p5) => .ok (.select cols ttok.value (some w), p5)
          else .ok (.select cols ttok.value none, p4)

/-- `parseInsert`; the parenthesized column list is optional and defaults to
the empty list -/
def parseInsert (fuel : Nat) (toks : List Token) (pos : Nat) :
    Except ParseError (Stmt × Nat) :=
  match expectTok toks pos .KEYWORD (some "INSERT") with
  | .error e => .error e
  | .ok (_, p) =>
    match expectTok toks p .KEYWORD (some "INTO") with
    | .error e => .error e
    | .ok (_, p2) =>
      match expectTok toks p2 .IDENTIFIER none with
      | .error e => .error e
      | .ok (ttok, p3) =>
        let colsE : Except ParseError (List String × Nat) :=
          if matchTok toks p3 .PUNCTUATION (some "(") then
            match identListAux fuel toks (p3 + 1) [] with
            | .error e => .error e
            | .ok (cols, p4) =>
              match expectTok toks p4 .PUNCTUATION (some ")") with
              | .error e => .error e
              | .ok (_, p5) => .ok (cols, p5)
          else .ok ([], p3)
        match colsE with
        | .error e => .error e
        | .ok (cols, p6) =>
          match expectTok toks p6 .KEYWORD (some "VALUES") with
          | .error e => .error e
          | .ok (_, p7) =>
            match valuesListAux fuel toks p7 [] with
            | .error e => .error e
            | .ok (vl, p8) => .ok (.insert ttok.value cols vl, p8)

/-- `parseUpdate` -/
def parseUpdate (fuel : Nat) (toks : List Token) (pos : Nat) :
    Except ParseError (Stmt × Nat) :=
  match expectTok toks pos .KEYWORD (some "UPDATE") with
  | .error e => .error e
  | .ok (_, p) =>
    match expectTok toks p .IDENTIFIER none with
    | .error e => .error e
    | .ok (ttok, p2) =>
      match expectTok toks p2 .KEYWORD (some "SET") with
      | .error e => .error e
      | .ok (_, p3) =>
        match assignmentsAux fuel toks p3 [] with
        | .error e => .error e
        | .ok (assigns, p4) =>
          if matchTok toks p4 .KEYWORD (some "WHERE") then
            match parseExpression fuel toks (p4 + 1) with
            | .error e => .error e
            | .ok (w, p5) => .ok (.update ttok.value assigns (some w), p5)
          else .ok (.update ttok.value assigns none, p4)

/-- `parseDelete` -/
def parseDelete (fuel : Nat) (toks : List Token) (pos : Nat) :
    Except ParseError (Stmt × Nat) :=
  match expectTok toks pos .KEYWORD (some "DELETE") with
  | .error e => .error e
  | .ok (_, p) =>
    match expectTok toks p .KEYWORD (some "FROM") with
    | .error e => .error e
    | .ok (_, p2) =>
      match expectTok toks p2 .IDENTIFIER none with
      | .error e => .error e
      | .ok (ttok, p3) =>
        if matchTok toks p3 .KEYWORD (some "WHERE") then
          match parseExpression fuel toks (p3 + 1) with
          | .error e => .error e
          | .ok (w, p4) => .ok (.delete ttok.value (some w), p4)
        else .ok (.delete ttok.value none, p3)

/-- `parseShow`: SHOW TABLES with an optional trailing semicolon, which this
statement alone consumes -/
def parseShow (toks : List Token) (pos : Nat) : Except ParseError (Stmt × Nat) :=
  match expectTok toks pos .KEYWORD (some "SHOW") with
  | .error e => .error e
  | .ok (_, p) =>
    if matchTok toks p .KEYWORD (some "TABLES") then
      if matchTok toks (p + 1) .PUNCTUATION (some ";") then .ok (.showTables, p + 2)
      else .ok (.showTables, p + 1)
    else
      match peekTok toks p with
      | some tok => .error (.expectedTablesAfterShow tok.value)
      | none => .error .typeErrorPeekNull

/-- `SQLParser.parse`: dispatch on the first token's uppercased value -/
def parseStmt (fuel : Nat) (toks : List Token) : Except ParseError (Stmt × Nat) :=
  match peekTok toks 0 with
  | none => .error .emptyQuery
  | some tok =>
    let u := upperStr tok.value
    if u == "SELECT" then parseSelect fuel toks 0
    else if u == "INSERT" then parseInsert fuel toks 0
    else if u == "UPDATE" then parseUpdate fuel toks 0
    else if u == "DELETE" then parseDelete fuel toks 0
    else if u == "SHOW" then parseShow toks 0
    else .error (.unsupportedCommand tok.value)

/-- ample fuel for a token list: every fuel decrement either consumes a token
or descends one of the seven precedence levels -/
def stdFuel (toks : List Token) : Nat := 16 * toks.length + 16

/-- `parseSQL(tokens)`: run the parser and return only the AST; the final
token index — and with it every unconsumed trailing token — is discarded -/
def parseSQL (toks : List Token) : Except ParseError Stmt :=
  match parseStmt (stdFuel toks) toks with
  | .error e => .error e
  | .ok (ast, _) => .ok ast

/-! shared fixtures: the editor's initial mock database -/

/-- the initial `users` table of the mock database -/
def usersTable : Table :=
  [[("id", JSValue.num ⟨1, 1⟩), ("name", JSValue.str "Alice"),
    ("email", JSValue.str "alice@example.com")],
   [("id", JSValue.num ⟨2, 1⟩), ("name", JSValue.str "Bob"),
    ("email", JSValue.str "bob@example.com")]]

/-- the initial mock database of the editor component -/
def sampleDb : Store := [("users", usersTable), ("orders", []), ("products", [])]

/-- substring test, for stating facts about error message texts -/
def strContainsSub (s sub : String) : Bool :=
  s.toList.tails.any (fun t => sub.toList.isPrefixOf t)

/-! store lemmas -/

theorem storeSet_self (db : Store) (t : String) (tbl : Table)
    (h : storeGet db t = some tbl) : storeSet db t tbl = db := by
  induction db with
  | nil => simp [storeGet] at h
  | cons p rest ih =>
    simp only [storeGet, List.find?] at h
    by_cases hp : p.1 == t
    · rw [hp] at h
      simp only [Option.some.injEq] at h
      simp only [storeSet, hp, if_pos]
      have ht : p.1 = t := by exact beq_iff_eq.mp hp
      rw [← h, ← ht]
    · rw [Bool.of_not_eq_true hp] at h
      simp only [storeSet, hp]
      rw [if_neg (by simp [hp])]
      have := ih (by simpa [storeGet] using h)
      rw [this]

theorem storeGet_storeSet_other (db : Store) (t n : String) (tbl : Table) (hne : n ≠ t) :
    storeGet (storeSet db t tbl) n = storeGet db n := by
  have htn : (t == n) = false := by simpa using Ne.symm hne
  induction db with
  | nil =>
    simp only [storeSet, storeGet, List.find?]
    rw [htn]
  | cons p rest ih =>
    simp only [storeSet]
    by_cases hp : p.1 == t
    · rw [if_pos hp]
      have ht : p.1 = t := beq_iff_eq.mp hp
      simp only [storeGet, List.find?]
      rw [htn, show (p.1 == n) = false by rw [ht]; exact htn]
    · rw [if_neg hp]
      simp only [storeGet, List.find?] at ih ⊢
      cases hpn : p.1 == n
      · exact ih
      · rfl

/-! structural (row-independent) characterization of evaluator errors -/

/-- true when an expression node is an Identifier or Literal — the only
operand shapes `getValue` supports -/
def isPrimaryNode : Expr → Bool
  | .binary _ _ _ => false
  | _ => true

/-- the error `evaluateExpression` raises on an expression, if any; it is
determined by the shape of the tree alone, not by the row -/
def evalErr : Expr → Option ExecError
  | .binary op l r =>
    if isPrimaryNode l && isPrimaryNode r then
      match op with
      | .add => some (.unsupportedOperator .add)
      | .sub => some (.unsupportedOperator .sub)
      | .mul => some (.unsupportedOperator .mul)
      | .div => some (.unsupportedOperator .div)
      | _ => none
    else some .unsupportedOperand
  | _ => none

theorem getValue_binary (row : Row) (op : BinOp) (l r : Expr) :
    getValue row (.binary op l r) = .error .unsupportedOperand := rfl

theorem getValue_ok (row : Row) (x : Expr) (h : isPrimaryNode x = true) :
    ∃ v, getValue row x = .ok v := by
  cases x with
  | binary op l r => simp [isPrimaryNode] at h
  | literal k v => exact ⟨parseValue k v, rfl⟩
  | identifier n => exact ⟨rowGet row n, rfl⟩

theorem evaluateExpression_primary (row : Row) (x : Expr) (h : isPrimaryNode x = true) :
    evaluateExpression row x = getValue row x := by
  cases x with
  | binary op l r => simp [isPrimaryNode] at h
  | literal k v => rfl
  | identifier n => rfl

theorem eval_ok_of_evalErr_none (e : Expr) (row : Row) (h : evalErr e = none) :
    ∃ v, evaluateExpression row e = .ok v := by
  cases e with
  | literal k v => exact ⟨parseValue k v, rfl⟩
  | identifier n => exact ⟨rowGet row n, rfl⟩
  | binary op l r =>
    simp only [evalErr] at h
    by_cases hpl : isPrimaryNode l = true
    · by_cases hpr : isPrimaryNode r = true
      · rw [if_pos (by simp [hpl, hpr])] at h
        obtain ⟨vl, hvl⟩ := getValue_ok row l hpl
        obtain ⟨vr, hvr⟩ := getValue_ok row r hpr
        have hel := evaluateExpression_primary row l hpl
        have her := evaluateExpression_primary row r hpr
        cases op with
        | eq => exact ⟨.bool (jsLooseEq vl vr), by simp [evaluateExpression, hvl, hvr]⟩
        | ne => exact ⟨.bool (! jsLooseEq vl vr), by simp [evaluateExpression, hvl, hvr]⟩
        | gt => exact ⟨.bool (jsLess vr vl), by simp [evaluateExpression, hvl, hvr]⟩
        | lt => exact ⟨.bool (jsLess vl vr), by simp [evaluateExpression, hvl, hvr]⟩
        | ge => exact ⟨.bool (jsLe vr vl), by simp [evaluateExpression, hvl, hvr]⟩
        | le => exact ⟨.bool (jsLe vl vr), by simp [evaluateExpression, hvl, hvr]⟩
        | andOp =>
          by_cases ht : truthy vl = true
          · exact ⟨vr, by simp [evaluateExpression, hvl, hvr, hel, her, ht]⟩
          · exact ⟨vl, by simp [evaluateExpression, hvl, hvr, hel, her, ht]⟩
        | orOp =>
          by_cases ht : truthy vl = true
          · exact ⟨vl, by simp [evaluateExpression, hvl, hvr, hel, her, ht]⟩
          · exact ⟨vr, by simp [evaluateExpression, hvl, hvr, hel, her, ht]⟩
        | add => simp at h
        | sub => simp at h
        | mul => simp at h
        | div => simp at h
      · rw [if_neg (by simp [hpr])] at h
        simp at h
    · rw [if_neg (by simp [hpl])] at h
      simp at h

theorem eval_error_of_evalErr_some (e : Expr) (row : Row) (err : ExecError)
    (h : evalErr e = some err) : evaluateExpression row e = .error err := by
  cases e with
  | literal k v => simp [evalErr] at h
  | identifier n => simp [evalErr] at h
  | binary op l r =>
    simp only [evalErr] at h
    by_cases hpl : isPrimaryNode l = true
    · by_cases hpr : isPrimaryNode r = true
      · rw [if_pos (by simp [hpl, hpr])] at h
        obtain ⟨vl, hvl⟩ := getValue_ok row l hpl
        obtain ⟨vr, hvr⟩ := getValue_ok row r hpr
        cases op <;> simp_all [evaluateExpression]
      · cases r with
        | binary op2 l2 r2 =>
          rw [if_neg (by simp [isPrimaryNode])] at h
          obtain ⟨vl, hvl⟩ := getValue_ok row l hpl
          simp only [Option.some.injEq] at h
          simp only [evaluateExpression, hvl, getValue_binary, ← h]
        | literal k v => simp [isPrimaryNode] at hpr
        | identifier n => simp [isPrimaryNode] at hpr
    · cases l with
      | binary op2 l2 r2 =>
        rw [if_neg (by simp [isPrimaryNode])] at h
        simp only [Option.some.injEq] at h
        simp only [evaluateExpression, getValue_binary, ← h]
      | literal k v => simp [isPrimaryNode] at hpl
      | identifier n => simp [isPrimaryNode] at hpl


theorem evalErr_some_of_eval_error (e : Expr) (row : Row) (err : ExecError)
    (h : evaluateExpression row e = .error err) : evalErr e = some err := by
  cases hE : evalErr e with
  | none =>
    obtain ⟨v, hv⟩ := eval_ok_of_evalErr_none e row hE
    rw [hv] at h
    exact absurd h (by simp)
  | some x =>
    have := eval_error_of_evalErr_some e row x hE
    rw [this] at h
    simp only [Except.error.injEq] at h
    exact congrArg some h

/-! executor lemmas -/

theorem deleteKeep_none (rows : List Row) : deleteKeep none rows = .ok [] := by
  induction rows with
  | nil => rfl
  | cons r rest ih => simp [deleteKeep, ih]

theorem updateRowsGo_none_no_err (assigns : List Assignment) (rows : List Row) :
    (updateRowsGo none assigns rows).2.2 = none := by
  induction rows with
  | nil => rfl
  | cons r rest ih => simp [updateRowsGo, ih]

theorem updateRowsGo_err_structural (e : Expr) (assigns : List Assignment) (rows : List Row)
    (err : ExecError) (h : (updateRowsGo (some e) assigns rows).2.2 = some err) :
    evalErr e = some err := by
  induction rows with
  | nil => simp [updateRowsGo] at h
  | cons row rest ih =>
    cases heval : evaluateExpression row e with
    | error err0 =>
      have he : err0 = err := by simpa [updateRowsGo, heval] using h
      rw [← he]
      exact evalErr_some_of_eval_error e row err0 heval
    | ok v =>
      exact ih (by simpa [updateRowsGo, heval] using h)

theorem updateRowsGo_err_unchanged (e : Expr) (assigns : List Assignment) (rows : List Row)
    (err : ExecError) (h : (updateRowsGo (some e) assigns rows).2.2 = some err) :
    (updateRowsGo (some e) assigns rows).1 = rows := by
  cases rows with
  | nil => rfl
  | cons row rest =>
    have hstruct := updateRowsGo_err_structural e assigns (row :: rest) err h
    have heval : evaluateExpression row e = .error err :=
      eval_error_of_evalErr_some e row err hstruct
    simp [updateRowsGo, heval]

theorem mapRecords_mismatch (cols : List String) (vl : List (List ValueToken))
    (h : ∃ vs ∈ vl, vs.length ≠ cols.length) :
    mapRecords cols vl = .error .columnCountMismatch := by
  induction vl with
  | nil => simp at h
  | cons vs rest ih =>
    obtain ⟨ws, hws, hlen⟩ := h
    rcases List.mem_cons.mp hws with heq | hmem
    · subst heq
      have hne : cols.length ≠ ws.length := fun hh => hlen hh.symm
      simp [mapRecords, buildRecord, hne]
    · by_cases hv : cols.length ≠ vs.length
      · simp [mapRecords, buildRecord, hv]
      · push_neg at hv
        simp [mapRecords, buildRecord, hv, ih ⟨ws, hmem, hlen⟩]

theorem mapRecords_ok (cols : List String) (vl : List (List ValueToken))
    (h : ∀ vs ∈ vl, vs.length = cols.length) :
    mapRecords cols vl = .ok (vl.map (mkRecord cols)) := by
  induction vl with
  | nil => rfl
  | cons vs rest ih =>
    have hv : cols.length = vs.length := (h vs (List.mem_cons_self vs rest)).symm
    simp [mapRecords, buildRecord, hv,
      ih (fun ws hw => h ws (List.mem_cons_of_mem _ hw))]

/-! Claim C1: executing DELETE without WHERE.
The claim asserts the table is left unchanged and the reported count is 0;
in the code the retain filter returns `false` for every row when WHERE is
absent, so all rows are removed and the count is the full table length. -/

/-- Claim C1 is false as stated: deleting from `users` with no WHERE against
the sample store empties the table and reports count 2 (not 0) -/
theorem claim_C1_counterexample :
    (executeAST (.delete "users" none) sampleDb).1 ≠ sampleDb ∧
    storeGet (executeAST (.delete "users" none) sampleDb).1 "users" = some [] ∧
    (executeAST (.delete "users" none) sampleDb).2 =
      .ok (.message ("Deleted 2 record(s) from " ++ sq ++ "users" ++ sq ++ " table")) := by
  refine ⟨by decide, by decide, by rfl⟩

/-- Claim C1 amended: for every DELETE without WHERE on an existing table,
execution removes ALL rows — the table becomes empty and the reported count
is the initial row count -/
theorem claim_C1_delete_no_where_removes_all (db : Store) (tn : String) (tbl : Table)
    (h : storeGet db tn = some tbl) :
    executeAST (.delete tn none) db =
      (storeSet db tn [],
       .ok (.message ("Deleted " ++ toString tbl.length ++ " record(s) from "
         ++ sq ++ tn ++ sq ++ " table"))) := by
  simp [executeAST, executeDelete, h, deleteKeep_none]

/-- witness: the amended C1 theorem applies to the sample store -/
theorem claim_C1_witness :
    storeGet sampleDb "users" = some usersTable ∧
    executeAST (.delete "users" none) sampleDb =
      (storeSet sampleDb "users" [],
       .ok (.message ("Deleted " ++ toString usersTable.length ++ " record(s) from "
         ++ sq ++ "users" ++ sq ++ " table"))) :=
  ⟨by decide, claim_C1_delete_no_where_removes_all sampleDb "users" usersTable (by decide)⟩

/-! Claim C2: SELECT * on an existing but empty table.
The claim asserts a descriptive cannot-infer-columns error; the code instead
crashes with the host TypeError from `Object.keys(tableData[0])`, whose
message mentions neither columns nor inference. It does fail rather than
returning an empty column list. -/

/-- Claim C2 is false as stated: the failure is the host TypeError, whose
message text contains neither "column" nor "infer" -/
theorem claim_C2_counterexample :
    (executeAST (.select ["*"] "orders" none) sampleDb).2 =
      .error .typeErrorKeysOfUndefined ∧
    execErrorMessage .typeErrorKeysOfUndefined =
      "Cannot convert undefined or null to object" ∧
    strContainsSub (execErrorMessage .typeErrorKeysOfUndefined) "column" = false ∧
    strContainsSub (execErrorMessage .typeErrorKeysOfUndefined) "infer" = false ∧
    (executeAST (.select ["*"] "orders" none) sampleDb).1 = sampleDb := by
  refine ⟨by rfl, by rfl, by decide, by decide, by decide⟩

/-- Claim C2 amended: a wildcard SELECT on an existing empty table always
fails (with the host TypeError of the column-inference step) rather than
returning a result with an empty column list, leaving the store unchanged -/
theorem claim_C2_select_star_empty_table_fails (db : Store) (cols : List String)
    (tn : String) (wh : Option Expr) (hcols : cols.contains "*" = true)
    (h : storeGet db tn = some []) :
    executeAST (.select cols tn wh) db = (db, .error .typeErrorKeysOfUndefined) := by
  have hmem : "*" ∈ cols := by simpa using hcols
  cases wh with
  | none => simp [executeAST, executeSelect, h, hmem]
  | some e => simp [executeAST, executeSelect, h, hmem, filterRows]

/-- witness: the amended C2 theorem applies to the empty `orders` table -/
theorem claim_C2_witness :
    (["*"] : List String).contains "*" = true ∧
    storeGet sampleDb "orders" = some [] ∧
    executeAST (.select ["*"] "orders" none) sampleDb =
      (sampleDb, .error .typeErrorKeysOfUndefined) :=
  ⟨by decide, by decide,
   claim_C2_select_star_empty_table_fails sampleDb ["*"] "orders" none (by decide) (by decide)⟩

/-! Claim C3: a failing statement has no observable effect on the store.
This holds: every evaluator error is determined by the expression's shape
alone (`evalErr`), so a WHERE clause that fails does so already on the first
row, before any in-place row mutation of `executeUpdate` has happened. -/

/-- Claim C3: if executing any statement raises an error, the store after the
call equals the store before it -/
theorem claim_C3_failing_statement_store_unchanged (ast : Stmt) (db : Store) (err : ExecError)
    (h : (executeAST ast db).2 = .error err) : (executeAST ast db).1 = db := by
  cases ast with
  | showTables => rfl
  | select cols tn wh => rfl
  | insert tn cols vl =>
    cases hg : storeGet db tn with
    | none => simp [executeAST, executeInsert, hg]
    | some tbl =>
      cases hm : mapRecords cols vl with
      | error e => simp [executeAST, executeInsert, hg, hm]
      | ok rs =>
        exfalso
        simp [executeAST, executeInsert, hg, hm] at h
  | delete tn wh =>
    cases hg : storeGet db tn with
    | none => simp [executeAST, executeDelete, hg]
    | some tbl =>
      cases hk : deleteKeep wh tbl with
      | error e => simp [executeAST, executeDelete, hg, hk]
      | ok kept =>
        exfalso
        simp [executeAST, executeDelete, hg, hk] at h
  | update tn assigns wh =>
    cases hg : storeGet db tn with
    | none => simp [executeAST, executeUpdate, hg]
    | some tbl =>
      cases wh with
      | none =>
        exfalso
        simp [executeAST, executeUpdate, hg, updateRowsGo_none_no_err] at h
      | some e =>
        cases herr : (updateRowsGo (some e) assigns tbl).2.2 with
        | none =>
          exfalso
          simp [executeAST, executeUpdate, hg, herr] at h
        | some e0 =>
          have h1 := updateRowsGo_err_unchanged e assigns tbl e0 herr
          simp [executeAST, executeUpdate, hg, herr, h1]
          exact storeSet_self db tn tbl hg

/-- witness: C3 applies to a concrete failing statement (a SELECT from a
missing table), whose execution leaves the sample store untouched -/
theorem claim_C3_witness :
    (executeAST (.select ["*"] "missing" none) sampleDb).2 =
      .error (.tableNotFound "missing") ∧
    (executeAST (.select ["*"] "missing" none) sampleDb).1 = sampleDb :=
  ⟨by rfl,
   claim_C3_failing_statement_store_unchanged (.select ["*"] "missing" none) sampleDb
     (.tableNotFound "missing") (by rfl)⟩

/-! Claim C4: the defensive unsupported-operator / unsupported-operand
branches of the evaluator are claimed unreachable on grammar-produced trees.
They are reachable: `getValue` runs on BOTH operands before the operator is
dispatched, so any BinaryExpression operand (e.g. each side of an AND of two
comparisons) hits the unsupported-operand branch, and any evaluated
arithmetic node hits the unsupported-operator branch. -/

/-- the tokens of `id = 1 AND name = 'Alice'` -/
def andToksC4 : List Token :=
  [⟨.IDENTIFIER, "id", 0⟩, ⟨.OPERATOR, "=", 3⟩, ⟨.NUMBER, "1", 5⟩,
   ⟨.KEYWORD, "AND", 7⟩, ⟨.IDENTIFIER, "name", 11⟩, ⟨.OPERATOR, "=", 16⟩,
   ⟨.STRING, "Alice", 18⟩]

/-- the tree the grammar builds for `id = 1 AND name = 'Alice'` -/
def andExprC4 : Expr :=
  .binary .andOp (.binary .eq (.identifier "id") (.literal .NUMBER "1"))
    (.binary .eq (.identifier "name") (.literal .STRING "Alice"))

/-- the tokens of `1 + 1` -/
def addToksC4 : List Token :=
  [⟨.NUMBER, "1", 0⟩, ⟨.OPERATOR, "+", 2⟩, ⟨.NUMBER, "1", 4⟩]

/-- Claim C4 is false as stated: two grammar-produced WHERE trees — an AND of
two comparisons, and an addition — do reach the defensive error branches -/
theorem claim_C4_counterexample :
    lexicalAnalysis ("id = 1 AND name = " ++ sq ++ "Alice" ++ sq) = .ok andToksC4 ∧
    parseExpression (stdFuel andToksC4) andToksC4 0 = .ok (andExprC4, 7) ∧
    evaluateExpression [("id", .num ⟨1, 1⟩), ("name", .str "Alice")] andExprC4 =
      .error .unsupportedOperand ∧
    lexicalAnalysis "1 + 1" = .ok addToksC4 ∧
    parseExpression (stdFuel addToksC4) addToksC4 0 =
      .ok (.binary .add (.literal .NUMBER "1") (.literal .NUMBER "1"), 3) ∧
    evaluateExpression [] (.binary .add (.literal .NUMBER "1") (.literal .NUMBER "1")) =
      .error (.unsupportedOperator .add) := by
  refine ⟨by rfl, by rfl, by rfl, by rfl, by rfl, by rfl⟩

/-- the expressions on which evaluation is safe: at most one binary node, its
operands primary and its operator a comparison or logical one -/
def flatSupported : Expr → Bool
  | .binary op l r =>
    isPrimaryNode l && isPrimaryNode r &&
      (match op with
       | .add | .sub | .mul | .div => false
       | _ => true)
  | _ => true

theorem evalErr_none_of_flat (e : Expr) (h : flatSupported e = true) : evalErr e = none := by
  cases e with
  | literal k v => rfl
  | identifier n => rfl
  | binary op l r =>
    simp only [flatSupported, Bool.and_eq_true] at h
    obtain ⟨⟨hl, hr⟩, hop⟩ := h
    simp only [evalErr, hl, hr, Bool.and_self, if_pos]
    cases op <;> first | rfl | simp at hop

/-- Claim C4 amended: the defensive branches are unreachable exactly on the
flat trees — every binary node with primary operands and a comparison or
logical operator evaluates without error on every row -/
theorem claim_C4_flat_expressions_never_hit_defensive_errors (e : Expr) (row : Row)
    (h : flatSupported e = true) : ∃ v, evaluateExpression row e = .ok v :=
  eval_ok_of_evalErr_none e row (evalErr_none_of_flat e h)

/-- witness: the amended C4 theorem applies to the comparison `id = 1` -/
theorem claim_C4_witness :
    flatSupported (.binary .eq (.identifier "id") (.literal .NUMBER "1")) = true ∧
    ∃ v, evaluateExpression [("id", JSValue.num ⟨1, 1⟩)]
      (.binary .eq (.identifier "id") (.literal .NUMBER "1")) = .ok v :=
  ⟨by decide,
   claim_C4_flat_expressions_never_hit_defensive_errors
     (.binary .eq (.identifier "id") (.literal .NUMBER "1"))
     [("id", JSValue.num ⟨1, 1⟩)] (by decide)⟩

/-! Claim C5: INSERT with an explicit column list. -/

/-- the Charlie INSERT of the spec's example -/
def charlieValues : List ValueToken :=
  [⟨.NUMBER, "3"⟩, ⟨.STRING, "Charlie"⟩, ⟨.STRING, "charlie@example.com"⟩]

/-- the row the executor builds for the Charlie INSERT -/
def charlieRow : Row := mkRecord ["id", "name", "email"] charlieValues

theorem executeInsert_mismatch (db : Store) (tn : String) (tbl : Table)
    (cols : List String) (vl : List (List ValueToken)) (hget : storeGet db tn = some tbl)
    (hex : ∃ vs ∈ vl, vs.length ≠ cols.length) :
    executeAST (.insert tn cols vl) db = (db, .error .columnCountMismatch) := by
  simp [executeAST, executeInsert, hget, mapRecords_mismatch cols vl hex]

theorem executeInsert_all_match (db : Store) (tn : String) (tbl : Table)
    (cols : List String) (vl : List (List ValueToken)) (hget : storeGet db tn = some tbl)
    (hall : ∀ vs ∈ vl, vs.length = cols.length) :
    executeAST (.insert tn cols vl) db =
      (storeSet db tn (tbl ++ vl.map (mkRecord cols)),
       .ok (.message ("Inserted " ++ toString vl.length ++ " record(s) into "
         ++ sq ++ tn ++ sq ++ " table"))) := by
  simp [executeAST, executeInsert, hget, mapRecords_ok cols vl hall]

/-- Claim C5: tuple-length mismatches raise the column-count error; matching
tuples are converted positionally (Number tokens become numbers), appended in
order, and counted in the message; in particular the spec's Charlie INSERT
adds one row whose id is the number 3 -/
theorem claim_C5_insert_semantics :
    (∀ (db : Store) (tn : String) (tbl : Table) (cols : List String)
        (vl : List (List ValueToken)), storeGet db tn = some tbl →
      (∃ vs ∈ vl, vs.length ≠ cols.length) →
      executeAST (.insert tn cols vl) db = (db, .error .columnCountMismatch)) ∧
    (∀ (db : Store) (tn : String) (tbl : Table) (cols : List String)
        (vl : List (List ValueToken)), storeGet db tn = some tbl →
      (∀ vs ∈ vl, vs.length = cols.length) →
      executeAST (.insert tn cols vl) db =
        (storeSet db tn (tbl ++ vl.map (mkRecord cols)),
         .ok (.message ("Inserted " ++ toString vl.length ++ " record(s) into "
           ++ sq ++ tn ++ sq ++ " table")))) ∧
    parseValue .NUMBER "3" = .num ⟨3, 1⟩ ∧
    executeAST (.insert "users" ["id", "name", "email"] [charlieValues]) sampleDb =
      (storeSet sampleDb "users" (usersTable ++ [charlieRow]),
       .ok (.message ("Inserted 1 record(s) into " ++ sq ++ "users" ++ sq ++ " table"))) ∧
    rowGet charlieRow "id" = .num ⟨3, 1⟩ ∧
    (usersTable ++ [charlieRow]).length = usersTable.length + 1 := by
  exact ⟨executeInsert_mismatch, executeInsert_all_match, by decide, by rfl, by decide, by decide⟩

/-- witness: both universal parts of C5 apply to concrete inserts on the
sample store -/
theorem claim_C5_witness :
    executeAST (.insert "users" ["id"] [[⟨.NUMBER, "1"⟩], [⟨.NUMBER, "2"⟩, ⟨.NUMBER, "3"⟩]])
        sampleDb = (sampleDb, .error .columnCountMismatch) ∧
    executeAST (.insert "users" ["id"] [[⟨.NUMBER, "7"⟩]]) sampleDb =
      (storeSet sampleDb "users" (usersTable ++ [mkRecord ["id"] [⟨.NUMBER, "7"⟩]]),
       .ok (.message ("Inserted 1 record(s) into " ++ sq ++ "users" ++ sq ++ " table"))) :=
  ⟨claim_C5_insert_semantics.1 sampleDb "users" usersTable ["id"]
     [[⟨.NUMBER, "1"⟩], [⟨.NUMBER, "2"⟩, ⟨.NUMBER, "3"⟩]] (by decide)
     ⟨[⟨.NUMBER, "2"⟩, ⟨.NUMBER, "3"⟩], by decide, by decide⟩,
   claim_C5_insert_semantics.2.1 sampleDb "users" usersTable ["id"]
     [[⟨.NUMBER, "7"⟩]] (by decide) (by decide)⟩

/-! Claim C9: INSERT with the column list omitted. -/

theorem valuesAux_grows (fuel : Nat) :
    ∀ (toks : List Token) (pos : Nat) (acc r : List ValueToken) (n : Nat),
      valuesAux fuel toks pos acc = .ok (r, n) → acc.length < r.length := by
  induction fuel with
  | zero => intro toks pos acc r n h; simp [valuesAux] at h
  | succ f ih =>
    intro toks pos acc r n h
    simp only [valuesAux] at h
    cases hv : parseValueTok toks pos with
    | error e => rw [hv] at h; exact absurd h (by simp)
    | ok vp =>
      obtain ⟨v, p⟩ := vp
      rw [hv] at h
      simp only at h
      by_cases hm : matchTok toks p .PUNCTUATION (some ",") = true
      · rw [if_pos hm] at h
        have := ih toks (p + 1) (acc ++ [v]) r n h
        have hle : acc.length ≤ (acc ++ [v]).length := by simp
        omega
      · rw [if_neg hm] at h
        simp only [Except.ok.injEq, Prod.mk.injEq] at h
        rw [← h.1]
        simp

theorem valuesListAux_tuples_nonempty (fuel : Nat) :
    ∀ (toks : List Token) (pos : Nat) (acc r : List (List ValueToken)) (n : Nat),
      valuesListAux fuel toks pos acc = .ok (r, n) → (∀ vs ∈ acc, vs ≠ []) →
      ∀ vs ∈ r, vs ≠ ([] : List ValueToken) := by
  induction fuel with
  | zero => intro toks pos acc r n h; simp [valuesListAux] at h
  | succ f ih =>
    intro toks pos acc r n h hacc
    simp only [valuesListAux] at h
    cases ho : expectTok toks pos .PUNCTUATION (some "(") with
    | error e => rw [ho] at h; exact absurd h (by simp)
    | ok op =>
      obtain ⟨otok, p1⟩ := op
      rw [ho] at h
      simp only at h
      cases hv : valuesAux f toks p1 [] with
      | error e => rw [hv] at h; exact absurd h (by simp)
      | ok vp =>
        obtain ⟨vs0, p2⟩ := vp
        rw [hv] at h
        simp only at h
        have hne : vs0 ≠ [] := by
          have := valuesAux_grows f toks p1 [] vs0 p2 (by rw [hv])
          intro hemp
          rw [hemp] at this
          simp at this
        cases hc : expectTok toks p2 .PUNCTUATION (some ")") with
        | error e => rw [hc] at h; exact absurd h (by simp)
        | ok cp =>
          obtain ⟨ctok, p3⟩ := cp
          rw [hc] at h
          simp only at h
          by_cases hm : matchTok toks p3 .PUNCTUATION (some ",") = true
          · rw [if_pos hm] at h
            refine ih toks (p3 + 1) (acc ++ [vs0]) r n h ?_
            intro vs hvs
            rcases List.mem_append.mp hvs with hl | hr
            · exact hacc vs hl
            · rw [List.mem_singleton.mp hr]; exact hne
          · rw [if_neg hm] at h
            simp only [Except.ok.injEq, Prod.mk.injEq] at h
            rw [← h.1]
            intro vs hvs
            rcases List.mem_append.mp hvs with hl | hr
            · exact hacc vs hl
            · rw [List.mem_singleton.mp hr]; exact hne

/-- the tokens of `INSERT INTO users VALUES (1), (2)` -/
def insNoColsToks : List Token :=
  [⟨.KEYWORD, "INSERT", 0⟩, ⟨.KEYWORD, "INTO", 7⟩, ⟨.IDENTIFIER, "users", 12⟩,
   ⟨.KEYWORD, "VALUES", 18⟩, ⟨.PUNCTUATION, "(", 25⟩, ⟨.NUMBER, "1", 26⟩,
   ⟨.PUNCTUATION, ")", 27⟩, ⟨.PUNCTUATION, ",", 28⟩, ⟨.PUNCTUATION, "(", 30⟩,
   ⟨.NUMBER, "2", 31⟩, ⟨.PUNCTUATION, ")", 32⟩]

/-- Claim C9: with an omitted column list the parsed columns are `[]`; since
every parsed value tuple is non-empty, execution always raises the
column-count mismatch and appends nothing -/
theorem claim_C9_insert_without_columns_never_succeeds :
    (∀ (db : Store) (tn : String) (tbl : Table) (vl : List (List ValueToken)),
      storeGet db tn = some tbl → (∃ vs ∈ vl, vs ≠ []) →
      executeAST (.insert tn [] vl) db = (db, .error .columnCountMismatch)) ∧
    (∀ (fuel : Nat) (toks : List Token) (pos : Nat)
        (r : List (List ValueToken)) (n : Nat),
      valuesListAux fuel toks pos [] = .ok (r, n) →
      ∀ vs ∈ r, vs ≠ ([] : List ValueToken)) ∧
    lexicalAnalysis "INSERT INTO users VALUES (1), (2)" = .ok insNoColsToks ∧
    parseSQL insNoColsToks =
      .ok (.insert "users" [] [[⟨.NUMBER, "1"⟩], [⟨.NUMBER, "2"⟩]]) := by
  refine ⟨?_, ?_, by rfl, by rfl⟩
  · intro db tn tbl vl hget hex
    obtain ⟨ws, hmem, hne⟩ := hex
    refine executeInsert_mismatch db tn tbl [] vl hget ⟨ws, hmem, ?_⟩
    simpa using hne
  · intro fuel toks pos r n h
    exact valuesListAux_tuples_nonempty fuel toks pos [] r n h (by simp)

/-- witness: C9 applies to a concrete column-less INSERT on the sample store -/
theorem claim_C9_witness :
    executeAST (.insert "users" [] [[⟨.NUMBER, "1"⟩]]) sampleDb =
      (sampleDb, .error .columnCountMismatch) :=
  claim_C9_insert_without_columns_never_succeeds.1 sampleDb "users" usersTable
    [[⟨.NUMBER, "1"⟩]] (by decide) ⟨[⟨.NUMBER, "1"⟩], by decide, by decide⟩

/-! Claim C6: the precedence ladder of the WHERE-expression grammar. -/

/-- tokenize a query and parse it as a WHERE expression, for stating concrete
grammar facts; `none` on a lexical or parse failure -/
def parseExprOfQuery (s : String) : Option (Expr × Nat) :=
  match lexicalAnalysis s with
  | .ok ts =>
    match parseExpression (stdFuel ts) ts 0 with
    | .ok r => some r
    | .error _ => none
  | .error _ => none

/-- shorthand for a numeric literal node in the statements below -/
def numLit (s : String) : Expr := .literal .NUMBER s

/-- Claim C6: the grammar parses by the ladder OR < AND < equality <
relational < additive < multiplicative, each level left-associative, with
parentheses grouping only (no node of their own); in particular
`id = 1 AND (name = 'Alice' OR name = 'Bob')` parses to an AND node whose
left child is the id comparison and whose right child is the OR of the two
name comparisons -/
theorem claim_C6_expression_precedence :
    parseExprOfQuery ("id = 1 AND (name = " ++ sq ++ "Alice" ++ sq ++ " OR name = "
        ++ sq ++ "Bob" ++ sq ++ ")") =
      some (.binary .andOp
        (.binary .eq (.identifier "id") (numLit "1"))
        (.binary .orOp
          (.binary .eq (.identifier "name") (.literal .STRING "Alice"))
          (.binary .eq (.identifier "name") (.literal .STRING "Bob"))), 13) ∧
    parseExprOfQuery "1 OR 2 AND 3" =
      some (.binary .orOp (numLit "1") (.binary .andOp (numLit "2") (numLit "3")), 5) ∧
    parseExprOfQuery "1 AND 2 = 3" =
      some (.binary .andOp (numLit "1") (.binary .eq (numLit "2") (numLit "3")), 5) ∧
    parseExprOfQuery "1 = 2 < 3" =
      some (.binary .eq (numLit "1") (.binary .lt (numLit "2") (numLit "3")), 5) ∧
    parseExprOfQuery "1 < 2 + 3" =
      some (.binary .lt (numLit "1") (.binary .add (numLit "2") (numLit "3")), 5) ∧
    parseExprOfQuery "1 + 2 * 3" =
      some (.binary .add (numLit "1") (.binary .mul (numLit "2") (numLit "3")), 5) ∧
    parseExprOfQuery "1 - 2 + 3" =
      some (.binary .add (.binary .sub (numLit "1") (numLit "2")) (numLit "3"), 5) ∧
    parseExprOfQuery "1 = 2 <> 3" =
      some (.binary .ne (.binary .eq (numLit "1") (numLit "2")) (numLit "3"), 5) ∧
    parseExprOfQuery "1 < 2 > 3" =
      some (.binary .gt (.binary .lt (numLit "1") (numLit "2")) (numLit "3"), 5) ∧
    parseExprOfQuery "6 / 3 * 2" =
      some (.binary .mul (.binary .div (numLit "6") (numLit "3")) (numLit "2"), 5) ∧
    parseExprOfQuery "1 OR 2 OR 3" =
      some (.binary .orOp (.binary .orOp (numLit "1") (numLit "2")) (numLit "3"), 5) ∧
    parseExprOfQuery "1 AND 2 AND 3" =
      some (.binary .andOp (.binary .andOp (numLit "1") (numLit "2")) (numLit "3"), 5) ∧
    parseExprOfQuery "(1 OR 2) AND 3" =
      some (.binary .andOp (.binary .orOp (numLit "1") (numLit "2")) (numLit "3"), 7) ∧
    parseExprOfQuery "(1)" = some (numLit "1", 3) := by
  refine ⟨by rfl, by rfl, by rfl, by rfl, by rfl, by rfl, by rfl, by rfl, by rfl, by rfl,
    by rfl, by rfl, by rfl, by rfl⟩

/-! Claim C7: number lexemes and the second decimal point. -/

theorem digit_not_ws (c : Char) (h : isDigitChar c = true) : isWhitespaceChar c = false := by
  simp only [isDigitChar, Bool.and_eq_true, decide_eq_true_eq] at h
  simp only [isWhitespaceChar, Bool.or_eq_false_iff, Bool.and_eq_false_iff,
    beq_eq_false_iff_ne, ne_eq, decide_eq_false_iff_not, not_le]
  omega

theorem digit_not_letter (c : Char) (h : isDigitChar c = true) : isLetterChar c = false := by
  simp only [isDigitChar, Bool.and_eq_true, decide_eq_true_eq] at h
  simp only [isLetterChar, Bool.or_eq_false_iff, Bool.and_eq_false_iff,
    decide_eq_false_iff_not, not_le]
  omega

theorem digit_ne_dot (c : Char) (h : isDigitChar c = true) : c ≠ '.' := by
  simp only [isDigitChar, Bool.and_eq_true, decide_eq_true_eq] at h
  intro he
  rw [he] at h
  simp at h

theorem numAux_decomp : ∀ (l : List Char) (b : Bool),
    l = (numAux l b).1 ++ (numAux l b).2 := by
  intro l
  induction l with
  | nil => intro b; rfl
  | cons c cs ih =>
    intro b
    by_cases hd : isDigitChar c = true
    · simp [numAux, hd, ← ih b]
    · by_cases hdot : c = '.'
      · subst hdot
        cases b with
        | true => simp [numAux, hd]
        | false => simp [numAux, hd, ← ih true]
      · simp [numAux, hd, hdot]

theorem numAux_chars : ∀ (l : List Char) (b : Bool) (ch : Char),
    ch ∈ (numAux l b).1 → isDigitChar ch = true ∨ ch = '.' := by
  intro l
  induction l with
  | nil => intro b ch hm; simp [numAux] at hm
  | cons c cs ih =>
    intro b ch hm
    by_cases hd : isDigitChar c = true
    · simp only [numAux, hd, if_true] at hm
      rcases List.mem_cons.mp hm with he | ht
      · exact Or.inl (he ▸ hd)
      · exact ih b ch ht
    · by_cases hdot : c = '.'
      · subst hdot
        cases b with
        | true => simp [numAux, hd] at hm
        | false =>
          simp only [numAux, hd, Bool.false_eq_true, if_false, if_true] at hm
          rcases List.mem_cons.mp hm with he | ht
          · exact Or.inr he
          · exact ih true ch ht
      · simp [numAux, hd, hdot] at hm

theorem numAux_dots : ∀ (l : List Char) (b : Bool),
    (numAux l b).1.count '.' ≤ if b then 0 else 1 := by
  intro l
  induction l with
  | nil => intro b; simp [numAux]
  | cons c cs ih =>
    intro b
    by_cases hd : isDigitChar c = true
    · have h0 := ih b
      simp only [numAux, hd, if_true, List.count_cons, beq_iff_eq]
      rw [if_neg (digit_ne_dot c hd)]
      simpa using h0
    · by_cases hdot : c = '.'
      · subst hdot
        cases b with
        | true => simp [numAux, hd]
        | false =>
          have h0 := ih true
          simp only [if_true] at h0
          simp only [numAux, hd, Bool.false_eq_true, if_false, if_true,
            List.count_cons]
          simp
          omega
      · simp [numAux, hd, hdot]

theorem numAux_stop_dot : ∀ (l : List Char) (b : Bool) (r : List Char),
    (numAux l b).2 = '.' :: r → b = true ∨ '.' ∈ (numAux l b).1 := by
  intro l
  induction l with
  | nil => intro b r h; simp [numAux] at h
  | cons c cs ih =>
    intro b r h
    by_cases hd : isDigitChar c = true
    · simp only [numAux, hd, if_true] at h ⊢
      rcases ih b r h with hb | hm
      · exact Or.inl hb
      · exact Or.inr (List.mem_cons_of_mem c hm)
    · by_cases hdot : c = '.'
      · subst hdot
        cases b with
        | true => exact Or.inl rfl
        | false =>
          simp only [numAux, hd, Bool.false_eq_true, if_false, if_true]
          exact Or.inr (List.mem_cons_self '.' _)
      · simp only [numAux, hd, hdot, if_false] at h
        exact absurd (List.cons.inj h).1 hdot

/-- scanning any input that starts with `.` fails at once: `.` is not a digit
start, not an operator, not punctuation -/
theorem analyzeAux_dot_fails (f : Nat) (r : List Char) (pos : Nat) :
    analyzeAux (f + 1) ('.' :: r) pos = .error (.invalidChar '.' pos) := by rfl

/-- Claim C7: a digit-started lexeme is scanned as one NUMBER lexeme of
digits with at most one decimal point, consumed exactly; if the scan stopped
at a (second) decimal point, that point is unconsumed and the whole scan of
the remaining input fails with the lexical error at its position -/
theorem claim_C7_number_lexeme (c : Char) (cs : List Char) (pos : Nat)
    (h : isDigitChar c = true) :
    (∀ ch ∈ (numAux (c :: cs) false).1, isDigitChar ch = true ∨ ch = '.') ∧
    (numAux (c :: cs) false).1.count '.' ≤ 1 ∧
    (numAux (c :: cs) false).1 ≠ [] ∧
    c :: cs = (numAux (c :: cs) false).1 ++ (numAux (c :: cs) false).2 ∧
    (∀ (fuel : Nat) (r : List Char), (numAux (c :: cs) false).2 = '.' :: r →
      '.' ∈ (numAux (c :: cs) false).1 ∧
      analyzeAux (fuel + 2) (c :: cs) pos =
        .error (.invalidChar '.' (pos + (numAux (c :: cs) false).1.length))) := by
  refine ⟨numAux_chars (c :: cs) false, ?_, ?_, numAux_decomp (c :: cs) false, ?_⟩
  · simpa using numAux_dots (c :: cs) false
  · simp [numAux, h]
  · intro fuel r hrest
    constructor
    · rcases numAux_stop_dot (c :: cs) false r hrest with hb | hm
      · exact absurd hb (by simp)
      · exact hm
    · show analyzeAux ((fuel + 1) + 1) (c :: cs) pos = _
      simp only [analyzeAux, digit_not_ws c h, digit_not_letter c h, h,
        Bool.false_eq_true, if_false, if_true]
      rw [hrest, analyzeAux_dot_fails]

/-- witness: C7 applies to the input `1.2.3`, whose NUMBER lexeme is `1.2`
and whose scan then fails at offset 3 -/
theorem claim_C7_witness :
    isDigitChar '1' = true ∧
    numAux ('1' :: ".2.3".toList) false = ("1.2".toList, ".3".toList) ∧
    analyzeAux (7 + 2) ('1' :: ".2.3".toList) 0 = .error (.invalidChar '.' 3) ∧
    lexicalAnalysis "1.2.3" = .error (.invalidChar '.' 3) :=
  ⟨by decide, by rfl,
   ((claim_C7_number_lexeme '1' ".2.3".toList 0 (by decide)).2.2.2.2 7 "3".toList
     (by rfl)).2,
   by rfl⟩

/-! Claim C8: string lexemes, quote escaping, and the unterminated error. -/

/-- the source spelling of a string literal's value: every quote character is
written as two consecutive quotes -/
def escapeQuotes : List Char → List Char
  | [] => []
  | c :: cs => (if c = quoteChar then [quoteChar, quoteChar] else [c]) ++ escapeQuotes cs

theorem strAux_escape (l : List Char) :
    ∀ v rest, strAux l = some (v, rest) → l = escapeQuotes v ++ quoteChar :: rest := by
  induction l using strAux.induct with
  | case1 => intro v rest h; simp [strAux] at h
  | case2 =>
    intro v rest h
    simp [strAux] at h
    obtain ⟨h1, h2⟩ := h
    subst h1
    subst h2
    rfl
  | case3 cs2 p hp ih =>
    intro v rest h
    simp [strAux, hp] at h
    have hrec := ih p.1 p.2 (by rw [hp])
    obtain ⟨h1, h2⟩ := h
    subst h1
    subst h2
    simpa [escapeQuotes] using hrec
  | case4 cs2 hp ih =>
    intro v rest h
    simp [strAux, hp] at h
  | case5 c2 cs2 hne =>
    intro v rest h
    simp [strAux, hne] at h
    obtain ⟨h1, h2⟩ := h
    subst h1
    subst h2
    rfl
  | case6 c2 cs2 hne p hp ih =>
    intro v rest h
    rw [strAux.eq_def] at h
    simp only [if_neg hne, hp, Option.some.injEq, Prod.mk.injEq] at h
    have hrec := ih p.1 p.2 (by rw [hp])
    obtain ⟨h1, h2⟩ := h
    subst h1
    subst h2
    simpa [escapeQuotes, hne] using hrec
  | case7 c2 cs2 hne hp ih =>
    intro v rest h
    rw [strAux.eq_def] at h
    simp [if_neg hne, hp] at h

/-- scanning an opening quote whose remainder has no closing quote throws the
unterminated-string error carrying the opening quote's position -/
theorem analyzeAux_unterminated (f : Nat) (cs : List Char) (pos : Nat)
    (h : strAux cs = none) :
    analyzeAux (f + 1) (quoteChar :: cs) pos = .error (.unterminatedString pos) := by
  have h1 : isWhitespaceChar quoteChar = false := by decide
  have h2 : isLetterChar quoteChar = false := by decide
  have h3 : isDigitChar quoteChar = false := by decide
  simp [analyzeAux, h, h1, h2, h3]

/-- Claim C8: a string lexeme accumulates characters verbatim with each quote
pair collapsing to one literal quote (the consumed source is exactly the
escaped value followed by the closing quote), and reaching end-of-input with
no closing quote fails with the unterminated-string error at the position of
the opening quote -/
theorem claim_C8_string_lexeme :
    (∀ (cs v rest : List Char), strAux cs = some (v, rest) →
      cs = escapeQuotes v ++ quoteChar :: rest) ∧
    (∀ (fuel : Nat) (cs : List Char) (pos : Nat), strAux cs = none →
      analyzeAux (fuel + 1) (quoteChar :: cs) pos =
        .error (.unterminatedString pos)) :=
  ⟨fun cs => strAux_escape cs,
   fun f cs pos h => analyzeAux_unterminated f cs pos h⟩

/-- witness: C8 applies to the literal `'it''s'` (value `it's`) and to the
unterminated `'abc` opened at offset 7 -/
theorem claim_C8_witness :
    strAux ['i', 't', quoteChar, quoteChar, 's', quoteChar] =
      some (['i', 't', quoteChar, 's'], []) ∧
    ['i', 't', quoteChar, quoteChar, 's', quoteChar] =
      escapeQuotes ['i', 't', quoteChar, 's'] ++ quoteChar :: [] ∧
    strAux "abc".toList = none ∧
    analyzeAux (5 + 1) (quoteChar :: "abc".toList) 7 =
      .error (.unterminatedString 7) ∧
    lexicalAnalysis (sq ++ "abc") = .error (.unterminatedString 0) :=
  ⟨by rfl,
   claim_C8_string_lexeme.1 ['i', 't', quoteChar, quoteChar, 's', quoteChar]
     ['i', 't', quoteChar, 's'] [] (by rfl),
   by rfl,
   claim_C8_string_lexeme.2 5 "abc".toList 7 (by rfl),
   by rfl⟩

/-! Claim C10: leftover tokens after a parsed statement.
`parseSQL` does discard everything after the consumed prefix — including a
trailing semicolon, which none of the four data statements consumes — but
"arbitrary extra tokens" is too strong: a token that continues an optional
clause of the statement (such as a WHERE keyword after a WHERE-less SELECT)
is consumed by the parser and can turn a complete statement into a syntax
error. -/

/-- the tokens of `SELECT a FROM t` -/
def c10SelToks : List Token :=
  [⟨.KEYWORD, "SELECT", 0⟩, ⟨.IDENTIFIER, "a", 7⟩, ⟨.KEYWORD, "FROM", 9⟩,
   ⟨.IDENTIFIER, "t", 14⟩]

/-- Claim C10 is false as stated: `SELECT a FROM t` is a complete statement
(the parser consumes all four tokens), yet appending the single token `WHERE`
makes parsing fail instead of ignoring it -/
theorem claim_C10_counterexample :
    lexicalAnalysis "SELECT a FROM t" = .ok c10SelToks ∧
    parseStmt (stdFuel c10SelToks) c10SelToks = .ok (.select ["a"] "t" none, 4) ∧
    c10SelToks.length = 4 ∧
    lexicalAnalysis "SELECT a FROM t WHERE" =
      .ok (c10SelToks ++ [⟨.KEYWORD, "WHERE", 16⟩]) ∧
    parseSQL (c10SelToks ++ [⟨.KEYWORD, "WHERE", 16⟩]) =
      .error .unexpectedEndOfInput := by
  refine ⟨by rfl, by rfl, by rfl, by rfl, by rfl⟩

/-- the tokens of `SELECT a FROM t ; WHERE 12 garbage` -/
def c10SelSemiToks : List Token :=
  c10SelToks ++
  [⟨.PUNCTUATION, ";", 16⟩, ⟨.KEYWORD, "WHERE", 18⟩, ⟨.NUMBER, "12", 24⟩,
   ⟨.IDENTIFIER, "garbage", 27⟩]

/-- the tokens of `INSERT INTO t (a) VALUES (1) ; x` -/
def c10InsToks : List Token :=
  [⟨.KEYWORD, "INSERT", 0⟩, ⟨.KEYWORD, "INTO", 7⟩, ⟨.IDENTIFIER, "t", 12⟩,
   ⟨.PUNCTUATION, "(", 14⟩, ⟨.IDENTIFIER, "a", 15⟩, ⟨.PUNCTUATION, ")", 16⟩,
   ⟨.KEYWORD, "VALUES", 18⟩, ⟨.PUNCTUATION, "(", 25⟩, ⟨.NUMBER, "1", 26⟩,
   ⟨.PUNCTUATION, ")", 27⟩, ⟨.PUNCTUATION, ";", 29⟩, ⟨.IDENTIFIER, "x", 31⟩]

/-- the tokens of `UPDATE t SET a = 1 ; x` -/
def c10UpdToks : List Token :=
  [⟨.KEYWORD, "UPDATE", 0⟩, ⟨.IDENTIFIER, "t", 7⟩, ⟨.KEYWORD, "SET", 9⟩,
   ⟨.IDENTIFIER, "a", 13⟩, ⟨.OPERATOR, "=", 15⟩, ⟨.NUMBER, "1", 17⟩,
   ⟨.PUNCTUATION, ";", 19⟩, ⟨.IDENTIFIER, "x", 21⟩]

/-- the tokens of `DELETE FROM t ; x` -/
def c10DelToks : List Token :=
  [⟨.KEYWORD, "DELETE", 0⟩, ⟨.KEYWORD, "FROM", 7⟩, ⟨.IDENTIFIER, "t", 12⟩,
   ⟨.PUNCTUATION, ";", 14⟩, ⟨.IDENTIFIER, "x", 16⟩]

/-- the tokens of `SHOW TABLES ;` -/
def c10ShowToks : List Token :=
  [⟨.KEYWORD, "SHOW", 0⟩, ⟨.KEYWORD, "TABLES", 5⟩, ⟨.PUNCTUATION, ";", 12⟩]

/-- Claim C10 amended: `parseSQL` returns the parsed statement's AST and
discards every token after the consumed prefix; a trailing semicolon is never
consumed by the four data statements (the parser stops right before it) and
it and anything after it are ignored without error; only SHOW TABLES consumes
an optional trailing semicolon. Extra tokens that continue an optional clause
of the statement are the exception recorded in the counterexample -/
theorem claim_C10_parse_ignores_leftover_tokens :
    (∀ (toks : List Token) (ast : Stmt) (n : Nat),
      parseStmt (stdFuel toks) toks = .ok (ast, n) → parseSQL toks = .ok ast) ∧
    (parseStmt (stdFuel c10SelSemiToks) c10SelSemiToks = .ok (.select ["a"] "t" none, 4) ∧
     c10SelSemiToks.get? 4 = some ⟨.PUNCTUATION, ";", 16⟩ ∧
     parseSQL c10SelSemiToks = .ok (.select ["a"] "t" none)) ∧
    (parseStmt (stdFuel c10InsToks) c10InsToks =
       .ok (.insert "t" ["a"] [[⟨.NUMBER, "1"⟩]], 10) ∧
     c10InsToks.get? 10 = some ⟨.PUNCTUATION, ";", 29⟩ ∧
     parseSQL c10InsToks = .ok (.insert "t" ["a"] [[⟨.NUMBER, "1"⟩]])) ∧
    (parseStmt (stdFuel c10UpdToks) c10UpdToks =
       .ok (.update "t" [⟨"a", ⟨.NUMBER, "1"⟩⟩] none, 6) ∧
     c10UpdToks.get? 6 = some ⟨.PUNCTUATION, ";", 19⟩ ∧
     parseSQL c10UpdToks = .ok (.update "t" [⟨"a", ⟨.NUMBER, "1"⟩⟩] none)) ∧
    (parseStmt (stdFuel c10DelToks) c10DelToks = .ok (.delete "t" none, 3) ∧
     c10DelToks.get? 3 = some ⟨.PUNCTUATION, ";", 14⟩ ∧
     parseSQL c10DelToks = .ok (.delete "t" none)) ∧
    (parseStmt (stdFuel c10ShowToks) c10ShowToks = .ok (.showTables, 3) ∧
     c10ShowToks.length = 3) := by
  refine ⟨?_, ⟨by rfl, by rfl, by rfl⟩, ⟨by rfl, by rfl, by rfl⟩, ⟨by rfl, by rfl, by rfl⟩,
    ⟨by rfl, by rfl, by rfl⟩, ⟨by rfl, by rfl⟩⟩
  intro toks ast n h
  simp [parseSQL, h]

/-- witness: the universal part of the amended C10 theorem applies to the
SHOW TABLES token sequence -/
theorem claim_C10_witness :
    parseStmt (stdFuel c10ShowToks) c10ShowToks = .ok (.showTables, 3) ∧
    parseSQL c10ShowToks = .ok .showTables :=
  ⟨by rfl,
   claim_C10_parse_ignores_leftover_tokens.1 c10ShowToks .showTables 3 (by rfl)⟩

end SqlEd
